import Mathlib

set_option linter.unusedVariables false

/-!
The low-level transport with shared connections of trezor-link.

A shallow embedding of `src/lowlevel/lowleveltransport.js`
(class `LowlevelTransportWithSharedConnections`) and theorems about it.

Conventions of the embedding.

* The transport object is the record `Transport`; every method is a function
  from the state in which it runs to an `Outcome`: the settled value of the
  returned promise, the state left behind and the list of effects on external
  collaborators (plugin invocations, rejected deferreds, timer waits).
* What an external collaborator answers (the plugin, the protobuf helpers)
  is an argument of the method that consults it.
* JavaScript objects used as dictionaries are association lists that keep the
  creation order of their properties; `JsObject.keys` yields the own keys in
  the order of the language (array indices first, ascending).
* `sessionIdCounter` is a JavaScript number holding an integer; it is kept as a
  natural number (numbers are exact integers below `2 ^ 53`).
* The numbers that `parseInt` and `compare` return are doubles: `Double` holds
  the integers a double represents and the infinities, `roundToDouble` rounds
  an integer to the nearest one, and `none` stands for `NaN`.
-/

namespace TrezorLink

/-! ## JavaScript values -/

/-- A value of Flow type `?string`: `undefined`, `null` or a string. -/
inductive MaybeString where
  | undefined
  | null
  | str (s : String)
  deriving DecidableEq, Repr

namespace MaybeString

/-- The loose comparison `a == b` on values of type `?string`. -/
def looseEq : MaybeString → MaybeString → Bool
  | str a, str b => a == b
  | str _, _ => false
  | _, str _ => false
  | _, _ => true

/-- The test `a == null`. -/
def isNullish : MaybeString → Bool
  | str _ => false
  | _ => true

/-- The result of a property read `obj[key]` on a dictionary of strings. -/
def ofOption : Option String → MaybeString
  | none => undefined
  | some s => str s

end MaybeString

/-- What a rejected promise carries. -/
inductive JsError where
  /-- `new Error(message)` raised by the transport itself. -/
  | error (message : String)
  /-- A `TypeError` raised by the language. -/
  | typeError (message : String)
  /-- Whatever an external collaborator threw. -/
  | thrown (value : String)
  deriving DecidableEq, Repr

deriving instance DecidableEq for Except

/-! ## Dictionaries -/

/-- An object created by `Object.create(null)` and used as a dictionary:
its own properties in creation order. -/
abbrev JsObject (α : Type) := List (String × α)

/-- Numeric value of a string of decimal digits. -/
def decimalValue (cs : List Char) : Nat :=
  cs.foldl (fun n c => 10 * n + (c.toNat - 48)) 0

/-- Whether a property key is an array index: the canonical decimal
rendering of an integer between `0` and `2 ^ 32 - 2`. -/
def isArrayIndex (key : String) : Bool :=
  match key.data with
  | [] => false
  | [c] => c.isDigit
  | c :: cs => c != '0' && (c :: cs).all Char.isDigit && decide (decimalValue (c :: cs) < 2 ^ 32 - 1)

namespace JsObject

variable {α : Type}

/-- The read `obj[key]`; `none` stands for `undefined`. -/
def get (obj : JsObject α) (key : String) : Option α :=
  obj.lookup key

/-- The write `obj[key] = value`: an existing property keeps its place, a new
one is created last. -/
def set (obj : JsObject α) (key : String) (value : α) : JsObject α :=
  if obj.any (fun e => e.1 == key) then
    obj.map (fun e => if e.1 == key then (key, value) else e)
  else
    obj ++ [(key, value)]

/-- The statement `delete obj[key]`. -/
def delete (obj : JsObject α) (key : String) : JsObject α :=
  obj.filter (fun e => e.1 != key)

/-- Own properties in the order of `Object.keys` and `Object.entries`: array
indices in ascending numeric order, then the other keys in creation order. -/
def entries (obj : JsObject α) : List (String × α) :=
  (obj.filter (fun e => isArrayIndex e.1)).insertionSort
      (fun a b => decimalValue a.1.data ≤ decimalValue b.1.data)
    ++ obj.filter (fun e => !isArrayIndex e.1)

/-- The list `Object.keys(obj)`. -/
def keys (obj : JsObject α) : List String :=
  (entries obj).map Prod.fst

end JsObject

/-! ## Strings: comparison, `parseInt`, JSON quoting -/

/-- The UTF-16 code units of a character. -/
def utf16 (c : Char) : List Nat :=
  if c.toNat < 0x10000 then [c.toNat]
  else [0xD800 + (c.toNat - 0x10000) / 0x400, 0xDC00 + (c.toNat - 0x10000) % 0x400]

/-- The UTF-16 code units of a string, which is what the language compares. -/
def codeUnits (s : String) : List Nat :=
  (s.data.map utf16).flatten

/-- Lexicographic comparison of code unit sequences. -/
def ltCodeUnits : List Nat → List Nat → Bool
  | [], [] => false
  | [], _ :: _ => true
  | _ :: _, [] => false
  | a :: as, b :: bs => decide (a < b) || (a == b && ltCodeUnits as bs)

/-- The comparison `a < b` on strings. -/
def stringLt (a b : String) : Bool :=
  ltCodeUnits (codeUnits a) (codeUnits b)

/-- White space and line terminators skipped by `parseInt`. -/
def isStrWhiteSpaceChar (c : Char) : Bool :=
  [0x09, 0x0A, 0x0B, 0x0C, 0x0D, 0x20, 0xA0, 0x1680, 0x2028, 0x2029, 0x202F, 0x205F,
    0x3000, 0xFEFF].contains c.toNat
    || (decide (0x2000 ≤ c.toNat) && decide (c.toNat ≤ 0x200A))

/-- Value of a character as a digit of the given radix, when it is one. -/
def digitValue (radix : Nat) (c : Char) : Option Nat :=
  let v : Option Nat :=
    if '0' ≤ c ∧ c ≤ '9' then some (c.toNat - 48)
    else if 'a' ≤ c ∧ c ≤ 'z' then some (c.toNat - 87)
    else if 'A' ≤ c ∧ c ≤ 'Z' then some (c.toNat - 55)
    else none
  v.filter (fun d => decide (d < radix))

/-- A JavaScript number other than `NaN`, as the transport meets them: an
integer that a double represents exactly (the sign of a zero is dropped), or
an infinity. A number that may be `NaN` is an `Option Double`, `none` being
`NaN`. -/
inductive Double where
  | finite (value : Int)
  | infinity (negative : Bool)
  deriving DecidableEq, Repr

/-- The literals `0`, `1`, ... as numbers. -/
instance (n : Nat) : OfNat Double n := ⟨Double.finite n⟩

/-- Number of binary digits of `n`, by repeated halving; `fuel` bounds the
number of halvings. -/
def bitLengthAux : Nat → Nat → Nat
  | 0, _ => 0
  | fuel + 1, n => if n = 0 then 0 else bitLengthAux fuel (n / 2) + 1

/-- Number of binary digits of `n` (`0` for `0`). -/
def bitLength (n : Nat) : Nat :=
  bitLengthAux n n

/-- The double nearest to an integer: the 53 leading binary digits are kept,
the rest is rounded to nearest, a tie going to the even neighbour; when the
rounded value has more than 1024 binary digits (it is `2 ^ 1024` or more) the
result is an infinity. -/
def roundToDouble (n : Int) : Double :=
  let m := n.natAbs
  let shift := bitLength m - 53
  let q := m / 2 ^ shift
  let r := m % 2 ^ shift
  let q1 := if 2 * r > 2 ^ shift ∨ (2 * r = 2 ^ shift ∧ q % 2 = 1) then q + 1 else q
  let v := q1 * 2 ^ shift
  if bitLength v > 1024 then .infinity (decide (n < 0))
  else .finite (if n < 0 then -(v : Int) else (v : Int))

/-- The difference `x - y` of two numbers; `none` is `NaN`. -/
def Double.sub : Double → Double → Option Double
  | .finite a, .finite b => some (roundToDouble (a - b))
  | .infinity n, .finite _ => some (.infinity n)
  | .finite _, .infinity n => some (.infinity (!n))
  | .infinity n, .infinity m => if n = m then none else some (.infinity n)

/-- The sign of a number: `-1`, `0` or `1`. -/
def Double.sign : Double → Int
  | .finite v => v.sign
  | .infinity true => -1
  | .infinity false => 1

/-- The global function `parseInt(string)` called without a radix; `none` is
`NaN`. The digits are read exactly and the integer is rounded to a double, as
the specification asks for up to 20 significant digits and as V8 does for
all. -/
def parseInt (s : String) : Option Double :=
  let trimmed := s.data.dropWhile isStrWhiteSpaceChar
  let signed : Int × List Char :=
    match trimmed with
    | '-' :: rest => (-1, rest)
    | '+' :: rest => (1, rest)
    | _ => (1, trimmed)
  let based : Nat × List Char :=
    match signed.2 with
    | '0' :: 'x' :: rest => (16, rest)
    | '0' :: 'X' :: rest => (16, rest)
    | _ => (10, signed.2)
  let digits := (based.2.takeWhile (fun c => (digitValue based.1 c).isSome)).filterMap
    (digitValue based.1)
  if digits.isEmpty then none
  else some (roundToDouble (signed.1 * (digits.foldl (fun n d => based.1 * n + d) 0 : Nat)))

/-- The string `JSON.stringify(s)` for a string `s`. -/
def jsonQuote (s : String) : String :=
  let escape (c : Char) : List Char :=
    if c = '"' then ['\\', '"']
    else if c = '\\' then ['\\', '\\']
    else if c.toNat = 0x08 then ['\\', 'b']
    else if c.toNat = 0x0C then ['\\', 'f']
    else if c.toNat = 0x0A then ['\\', 'n']
    else if c.toNat = 0x0D then ['\\', 'r']
    else if c.toNat = 0x09 then ['\\', 't']
    else if c.toNat < 0x20 then
      ['\\', 'u', '0', '0', Nat.digitChar (c.toNat / 16), Nat.digitChar (c.toNat % 16)]
    else [c]
  String.mk (['"'] ++ (s.data.map escape).flatten ++ ['"'])

/-! ## Records of the transport -/

/-- What the plugin reports for one device (`TrezorDeviceInfoDebug`). -/
structure TrezorDeviceInfoDebug where
  path : String
  debug : Bool
  deriving DecidableEq, Repr

/-- The enumeration record handed to callers. -/
structure TrezorDeviceInfoWithSession where
  path : String
  session : MaybeString
  debug : Bool
  debugSession : MaybeString
  deriving DecidableEq, Repr

/-- The argument of `acquire`. -/
structure AcquireInput where
  path : String
  previous : MaybeString
  deriving DecidableEq, Repr

/-- A parsed message definition set, as `parseConfigure` returns it. Its
content is of no concern to the transport. -/
structure Messages where
  source : String
  deriving DecidableEq, Repr

/-- A decoded message received from the device. -/
structure MessageFromTrezor where
  type : String
  message : String
  deriving DecidableEq, Repr

/-- Modelled from the spec: the deferred object of `../defered`, which is not
among the sources. It is the one-shot release signal of a session: pending
until rejected, and a rejection after the first changes nothing. -/
structure Defered where
  rejection : Option JsError
  deriving DecidableEq, Repr

/-- Modelled from the spec: `create()` of `../defered` returns a pending
signal. -/
def createDefered : Defered :=
  ⟨none⟩

/-- Modelled from the spec: `defered.reject(reason)` of `../defered`. -/
def Defered.reject (d : Defered) (reason : JsError) : Defered :=
  match d.rejection with
  | none => ⟨some reason⟩
  | some _ => d

/-- An effect of the transport on the world around it. -/
inductive Effect where
  | pluginEnumerate
  | pluginConnect (path : String) (debug : Bool) (exclusive : Bool)
  | pluginDisconnect (path : String) (debug : Bool) (last : Bool)
  | pluginInit (debug : Bool)
  | pluginRequestDevice
  | parseConfigure (signedData : String)
  | buildAndSend (path : String) (debug : Bool) (name : String) (data : String)
  | receiveAndParse (path : String) (debug : Bool)
  /-- The call `table[session].reject(reason)` on a live release signal. -/
  | rejected (session : String) (debug : Bool) (reason : JsError)
  /-- The wait `resolveTimeoutPromise(ms, null)`. -/
  | timeout (ms : Nat)
  deriving DecidableEq, Repr

/-- The field `sessions`: one dictionary path => session per class. -/
structure Sessions where
  debugSessions : JsObject String
  normalSessions : JsObject String
  deriving DecidableEq, Repr

/-- The mutable fields of `LowlevelTransportWithSharedConnections`. -/
structure Transport where
  debug : Bool
  sessionIdCounter : Nat
  sessions : Sessions
  -- session => promise rejecting on release: `acquire` stores a signal under
  -- the session token (the comment in the source says `path`)
  deferedDebugOnRelease : JsObject Defered
  deferedNormalOnRelease : JsObject Defered
  _messages : Option Messages
  configured : Bool
  stopped : Bool
  _lastStringified : String
  requestNeeded : Bool
  deriving DecidableEq, Repr

/-- The field initialisers of the class. -/
def Transport.initial : Transport where
  debug := false
  sessionIdCounter := 0
  sessions := ⟨[], []⟩
  deferedDebugOnRelease := []
  deferedNormalOnRelease := []
  _messages := none
  configured := false
  stopped := false
  _lastStringified := ""
  requestNeeded := false

/-- How a method call ends: the settled value of its promise, the state of
the transport it leaves and the effects it had, in order. -/
structure Outcome (α : Type) where
  result : Except JsError α
  state : Transport
  effects : List Effect
  deriving DecidableEq

/-! ## Module-level functions -/

/-- The package `json-stable-stringify` applied to an array of objects with
the two keys `path` and `session`: keys in sorted order, no white space. -/
def stringify (pureDevices : List (String × MaybeString)) : String :=
  let item (d : String × MaybeString) : String :=
    "\x7b\"path\":" ++ jsonQuote d.1 ++ ",\"session\":"
      ++ (match d.2 with
          | .str s => jsonQuote s
          | _ => "null")
      ++ "\x7d"
  "[" ++ ",".intercalate (pureDevices.map item) ++ "]"

/-- The function `stableStringify(devices)`; `none` is a `null` or `undefined`
argument. -/
def stableStringify (devices : Option (List TrezorDeviceInfoWithSession)) : String :=
  match devices with
  | none => "null"
  | some devices =>
    let pureDevices := devices.map (fun device =>
      let path := device.path
      let session := if device.session.isNullish then MaybeString.null else device.session
      (path, session))
    stringify pureDevices

/-- The function `compare(a, b)`; `none` is `NaN`. -/
def compare (a b : TrezorDeviceInfoWithSession) : Option Double :=
  match parseInt a.path with
  | some x =>
    match parseInt b.path with
    | some y => x.sub y
    | none => none
  | none =>
    some (if stringLt a.path b.path then .finite (-1)
      else if stringLt b.path a.path then .finite 1 else .finite 0)

/-- The method `Array.prototype.sort(comparefn)`: a stable sort by the sign of
the answers of the comparison function, a `NaN` answer counting as `0`. When
the comparison function is a consistent order on the elements, this is the
list every engine returns; otherwise the language leaves the order to the
engine (V8 returns `"a"`, `"b"`, `"10"` for the paths `"b"`, `"a"`, `"10"`),
and the model inserts the elements one by one, from the last to the first. -/
def arraySort
    (comparefn : TrezorDeviceInfoWithSession → TrezorDeviceInfoWithSession → Option Double)
    (devices : List TrezorDeviceInfoWithSession) : List TrezorDeviceInfoWithSession :=
  devices.insertionSort (fun a b => ((comparefn a b).map Double.sign).getD 0 ≤ 0)

/-- The constant `ITER_MAX`. -/
def ITER_MAX : Nat := 60

/-- The constant `ITER_DELAY`. -/
def ITER_DELAY : Nat := 500

/-! ## Methods of the transport -/

/-- The dictionary path => session of one class:
`this.sessions[debugLink ? "debugSessions" : "normalSessions"]`. -/
def Transport.sessionsOf (t : Transport) (debugLink : Bool) : JsObject String :=
  if debugLink then t.sessions.debugSessions else t.sessions.normalSessions

/-- The table session => release signal of one class:
`debugLink ? this.deferedDebugOnRelease : this.deferedNormalOnRelease`. -/
def Transport.deferedOf (t : Transport) (debugLink : Bool) : JsObject Defered :=
  if debugLink then t.deferedDebugOnRelease else t.deferedNormalOnRelease

/-- The method `_releaseCleanup(session, debugLink)`. -/
def _releaseCleanup (t : Transport) (session : String) (debugLink : Bool) :
    Transport × List Effect :=
  let table := t.deferedOf debugLink
  match table.get session with
  | some _ =>
    let reason := JsError.error "Device released or disconnected"
    let table := table.delete session
    (if debugLink then { t with deferedDebugOnRelease := table }
      else { t with deferedNormalOnRelease := table },
     [Effect.rejected session debugLink reason])
  | none => (t, [])

/-- One `forEach` loop of `_releaseDisconnected` over the sessions of a table. -/
def releaseUnconnected (connected : JsObject Bool) (debugLink : Bool)
    (sessions : List String) (t : Transport) : Transport × List Effect :=
  sessions.foldl (fun acc session =>
    if (connected.get session).isNone then
      let r := _releaseCleanup acc.1 session debugLink
      (r.1, acc.2 ++ r.2)
    else acc) (t, [])

/-- The method `_releaseDisconnected(devices)`. -/
def _releaseDisconnected (t : Transport) (devices : List TrezorDeviceInfoWithSession) :
    Transport × List Effect :=
  let connected : JsObject Bool := devices.foldl (fun connected device =>
    match device.session with
    | .str session => connected.set session true
    | _ => connected) []
  let r1 := releaseUnconnected connected true (JsObject.keys t.deferedDebugOnRelease) t
  let r2 := releaseUnconnected connected false (JsObject.keys r1.1.deferedNormalOnRelease) r1.1
  (r2.1, r1.2 ++ r2.2)

/-- The method `_silentEnumerate()`; `plugin` is what `plugin.enumerate()`
settles to. -/
def _silentEnumerate (t : Transport) (plugin : Except JsError (List TrezorDeviceInfoDebug)) :
    Outcome (List TrezorDeviceInfoWithSession) :=
  match plugin with
  | .error e => ⟨.error e, t, [Effect.pluginEnumerate]⟩
  | .ok devices =>
    let debugSessions := t.sessions.debugSessions
    let normalSessions := t.sessions.normalSessions
    let devicesWithSessions := devices.map (fun device =>
      let session := MaybeString.ofOption (normalSessions.get device.path)
      let debugSession := MaybeString.ofOption (debugSessions.get device.path)
      ({ path := device.path, session := session, debug := device.debug,
         debugSession := debugSession } : TrezorDeviceInfoWithSession))
    let r := _releaseDisconnected t devicesWithSessions
    ⟨.ok (arraySort compare devicesWithSessions), r.1, Effect.pluginEnumerate :: r.2⟩

/-- The method `enumerate()`. -/
def enumerate (t : Transport) (plugin : Except JsError (List TrezorDeviceInfoDebug)) :
    Outcome (List TrezorDeviceInfoWithSession) :=
  _silentEnumerate t plugin

/-- The method `_runIter(iteration, oldStringified)`. The answer of the plugin
to the enumeration of round `i` is `plugin i`. The recursion of the source is
unbounded; `fuel` bounds the number of rounds unfolded, and `none` means that
the fuel ran out before the method returned. -/
def _runIter (plugin : Nat → Except JsError (List TrezorDeviceInfoDebug)) :
    Nat → Transport → Nat → String → List Effect →
      Option (Outcome (List TrezorDeviceInfoWithSession))
  | 0, _, _, _, _ => none
  | fuel + 1, t, iteration, oldStringified, done =>
    let r := _silentEnumerate t (plugin iteration)
    match r.result with
    | .error e => some ⟨.error e, r.state, done ++ r.effects⟩
    | .ok devices =>
      let stringified := stableStringify (some devices)
      if stringified ≠ oldStringified ∨ iteration = ITER_MAX then
        some ⟨.ok devices, { r.state with _lastStringified := stringified }, done ++ r.effects⟩
      else
        _runIter plugin fuel r.state (iteration + 1) stringified
          (done ++ r.effects ++ [Effect.timeout ITER_DELAY])

/-- The method `listen(old)`, unfolded for at most `fuel` rounds. -/
def listenFuel (fuel : Nat) (t : Transport) (old : Option (List TrezorDeviceInfoWithSession))
    (plugin : Nat → Except JsError (List TrezorDeviceInfoDebug)) :
    Option (Outcome (List TrezorDeviceInfoWithSession)) :=
  let oldStringified := stableStringify old
  let last := if old.isNone then t._lastStringified else oldStringified
  _runIter plugin fuel t 0 last []

/-- The method `listen(old)`: `ITER_MAX + 1` rounds always suffice. -/
def listen (t : Transport) (old : Option (List TrezorDeviceInfoWithSession))
    (plugin : Nat → Except JsError (List TrezorDeviceInfoDebug)) :
    Option (Outcome (List TrezorDeviceInfoWithSession)) :=
  listenFuel (ITER_MAX + 1) t old plugin

/-- The method `acquire(input, debugLink)`; `connect` is what
`plugin.connect(input.path, debugLink, true)` settles to when invoked. -/
def acquire (t : Transport) (input : AcquireInput) (debugLink : Bool)
    (connect : Except JsError Unit) : Outcome String :=
  let previous := MaybeString.ofOption ((t.sessionsOf debugLink).get input.path)
  if !(input.previous.looseEq previous) then
    ⟨.error (.error "wrong previous session"), t, []⟩
  else
    match connect with
    | .error e => ⟨.error e, t, [Effect.pluginConnect input.path debugLink true]⟩
    | .ok _ =>
      let session : String := toString t.sessionIdCounter
      let t1 := { t with sessionIdCounter := t.sessionIdCounter + 1 }
      let t2 : Transport :=
        if debugLink then
          { t1 with sessions :=
              { t1.sessions with
                debugSessions := t1.sessions.debugSessions.set input.path session } }
        else
          { t1 with sessions :=
              { t1.sessions with
                normalSessions := t1.sessions.normalSessions.set input.path session } }
      let t3 : Transport :=
        if debugLink then
          { t2 with deferedDebugOnRelease := t2.deferedDebugOnRelease.set session createDefered }
        else
          { t2 with deferedNormalOnRelease := t2.deferedNormalOnRelease.set session createDefered }
      ⟨.ok session, t3, [Effect.pluginConnect input.path debugLink true]⟩

/-- The method `release(session, onclose, debugLink)`; `disconnect` is what
`plugin.disconnect(path, debugLink, true)` settles to when invoked. -/
def release (t : Transport) (session : String) (onclose : Bool) (debugLink : Bool)
    (disconnect : Except JsError Unit) : Outcome Unit :=
  let path := ((JsObject.entries (t.sessionsOf debugLink)).find?
    (fun e => e.2 == session)).map Prod.fst
  match path with
  | none => ⟨.error (.error "Trying to double release."), t, []⟩
  | some path =>
    let last := true
    let r := _releaseCleanup t session debugLink
    match disconnect with
    | .ok _ => ⟨.ok (), r.1, r.2 ++ [Effect.pluginDisconnect path debugLink last]⟩
    | .error _ =>
      -- ignore release errors, it's not important that much
      ⟨.ok (), r.1, r.2 ++ [Effect.pluginDisconnect path debugLink last]⟩

/-- The method `configure(signedData)`; `parsed` is what
`parseConfigure(signedData)` returns or throws. -/
def configure (t : Transport) (signedData : String) (parsed : Except JsError Messages) :
    Outcome Unit :=
  match parsed with
  | .error e => ⟨.error e, t, [Effect.parseConfigure signedData]⟩
  | .ok messages =>
    ⟨.ok (), { t with _messages := some messages, configured := true },
      [Effect.parseConfigure signedData]⟩

/-- The method `messages()`. -/
def messages (t : Transport) : Except JsError Messages :=
  match t._messages with
  | none => .error (.error "Transport not configured.")
  | some m => .ok m

/-- The method `doWithSession(session, debugLink, inside)`. It runs in the
state `t` up to `await inside(path)` and resumes in the state `later`, the
state of the transport once the promise of `inside` has settled (`later = t`
when no other method ran in between). `inside path` gives what that promise
settles to and the effects of the work.

The final `Promise.race([defered.rejectingPromise, resPromise])` has a
plain value as second entry: it rejects when the signal is already rejected
and resolves to the value when the signal is pending. -/
def doWithSession {X : Type} (t later : Transport) (session : String) (debugLink : Bool)
    (inside : String → Except JsError X × List Effect) : Outcome X :=
  let sessionsMM := t.sessionsOf debugLink
  let path_ : Option String := (JsObject.keys sessionsMM).foldl (fun path_ kpath =>
    if sessionsMM.get kpath = some session then some kpath else path_) none
  match path_ with
  | none => ⟨.error (.error "Session not available."), t, []⟩
  | some path =>
    let r := inside path
    match r.1 with
    | .error e => ⟨.error e, later, r.2⟩
    | .ok resPromise =>
      let defered := (later.deferedOf debugLink).get session
      match defered with
      | none =>
        -- `defered.rejectingPromise` with `defered` undefined
        ⟨.error (.typeError "Cannot read properties of undefined (reading rejectingPromise)"),
          later, r.2⟩
      | some defered =>
        match defered.rejection with
        | some reason => ⟨.error reason, later, r.2⟩
        | none => ⟨.ok resPromise, later, r.2⟩

/-- The method `call(session, name, data, debugLink)`; `sent` and `received`
are what `buildAndSend` and `receiveAndParse` settle to when invoked. -/
def call (t later : Transport) (session name data : String) (debugLink : Bool)
    (sent : Except JsError Unit) (received : Except JsError MessageFromTrezor) :
    Outcome MessageFromTrezor :=
  let callInside (path : String) : Except JsError MessageFromTrezor × List Effect :=
    match messages t with
    | .error e => (.error e, [])
    | .ok _ =>
      match sent with
      | .error e => (.error e, [Effect.buildAndSend path debugLink name data])
      | .ok _ =>
        (received, [Effect.buildAndSend path debugLink name data,
          Effect.receiveAndParse path debugLink])
  doWithSession t later session debugLink callInside

/-- The method `post(session, name, data, debugLink)`. -/
def post (t later : Transport) (session name data : String) (debugLink : Bool)
    (sent : Except JsError Unit) : Outcome Unit :=
  let callInside (path : String) : Except JsError Unit × List Effect :=
    match messages t with
    | .error e => (.error e, [])
    | .ok _ => (sent, [Effect.buildAndSend path debugLink name data])
  doWithSession t later session debugLink callInside

/-- The method `read(session, debugLink)`. -/
def read (t later : Transport) (session : String) (debugLink : Bool)
    (received : Except JsError MessageFromTrezor) : Outcome MessageFromTrezor :=
  let callInside (path : String) : Except JsError MessageFromTrezor × List Effect :=
    match messages t with
    | .error e => (.error e, [])
    | .ok _ => (received, [Effect.receiveAndParse path debugLink])
  doWithSession t later session debugLink callInside

/-- The method `stop()`. -/
def stop (t : Transport) : Transport :=
  { t with stopped := true }

/-! ## Sample states -/

/-- The state after `acquire` of path `"1"` in the Normal class succeeded on a
fresh transport; the token is `"0"`. -/
def Sample.boundNormal : Transport :=
  (acquire Transport.initial ⟨"1", .undefined⟩ false (.ok ())).state

/-- The state after `acquire` of path `"1"` in the Debug class succeeded on a
fresh transport; the token is `"0"`. -/
def Sample.boundDebug : Transport :=
  (acquire Transport.initial ⟨"1", .undefined⟩ true (.ok ())).state

/-- The state `Sample.boundNormal` after a successful `configure`. -/
def Sample.configured : Transport :=
  (configure Sample.boundNormal "signed" (.ok ⟨"signed"⟩)).state

/-- The state `Sample.configured` after `release` of the session `"0"`. -/
def Sample.released : Transport :=
  (release Sample.configured "0" false false (.ok ())).state

/-- The state `Sample.configured` after an `enumerate` pass in which the plugin
reports no device. -/
def Sample.vanished : Transport :=
  (enumerate Sample.configured (.ok [])).state

/-- A message a device may answer. -/
def Sample.success : MessageFromTrezor :=
  ⟨"Success", ""⟩

/-! ## Histories -/

/-- One call of a public method of the registry, with what the plugin
answers during it. -/
inductive Op where
  | enumerate (plugin : Except JsError (List TrezorDeviceInfoDebug))
  | listen (old : Option (List TrezorDeviceInfoWithSession))
      (plugin : Nat → Except JsError (List TrezorDeviceInfoDebug))
  | acquire (input : AcquireInput) (debugLink : Bool) (connect : Except JsError Unit)
  | release (session : String) (onclose : Bool) (debugLink : Bool)
      (disconnect : Except JsError Unit)

/-- What a call of a public method returned. -/
inductive Returned where
  | devices (list : List TrezorDeviceInfoWithSession)
  | session (token : String)
  | nothing
  | failure (e : JsError)
  deriving DecidableEq, Repr

/-- The value carried by an outcome. -/
def Returned.ofResult {α : Type} (f : α → Returned) : Except JsError α → Returned
  | .ok a => f a
  | .error e => failure e

/-- Running one call, each call starting when the one before has returned. -/
def step (t : Transport) : Op → Option (Transport × Returned)
  | .enumerate plugin =>
    let r := enumerate t plugin
    some (r.state, Returned.ofResult Returned.devices r.result)
  | .listen old plugin =>
    (listen t old plugin).map (fun r => (r.state, Returned.ofResult Returned.devices r.result))
  | .acquire input debugLink connect =>
    let r := acquire t input debugLink connect
    some (r.state, Returned.ofResult Returned.session r.result)
  | .release session onclose debugLink disconnect =>
    let r := release t session onclose debugLink disconnect
    some (r.state, Returned.ofResult (fun _ => Returned.nothing) r.result)

/-- Running a sequence of calls from a state: the final state and what each
call returned, in order. -/
def run : Transport → List Op → Option (Transport × List Returned)
  | t, [] => some (t, [])
  | t, op :: ops =>
    match step t op with
    | none => none
    | some (t1, ret) =>
      match run t1 ops with
      | none => none
      | some (t2, rets) => some (t2, ret :: rets)

/-- The session tokens among the returned values. -/
def tokens : List Returned → List String
  | [] => []
  | .session token :: rest => token :: tokens rest
  | _ :: rest => tokens rest

/-- The states reachable from the initial state by the calls of `Op`. -/
inductive Reachable : Transport → Prop where
  | initial : Reachable Transport.initial
  | step {t t1 : Transport} {ret : Returned} (op : Op) :
      Reachable t → step t op = some (t1, ret) → Reachable t1

/-! ## The decimal rendering of the session counter -/

theorem digitChar_value (k : Nat) (h : k < 10) : (Nat.digitChar k).toNat - 48 = k := by
  interval_cases k <;> rfl

theorem decimalValue_append (xs : List Char) (c : Char) :
    decimalValue (xs ++ [c]) = 10 * decimalValue xs + (c.toNat - 48) := by
  simp [decimalValue, List.foldl_append]

theorem toDigitsCore_append (fuel : Nat) : ∀ (n : Nat) (ds : List Char),
    Nat.toDigitsCore 10 fuel n ds = Nat.toDigitsCore 10 fuel n [] ++ ds := by
  induction fuel with
  | zero => intro n ds; simp [Nat.toDigitsCore]
  | succ fuel ih =>
    intro n ds
    simp only [Nat.toDigitsCore]
    split
    · simp
    · rw [ih (n / 10) (_ :: ds), ih (n / 10) [_]]; simp

theorem decimalValue_toDigitsCore (fuel : Nat) : ∀ n : Nat, n < fuel →
    decimalValue (Nat.toDigitsCore 10 fuel n []) = n := by
  induction fuel with
  | zero => intro n h; omega
  | succ fuel ih =>
    intro n h
    simp only [Nat.toDigitsCore]
    split
    · rename_i h0
      have : n < 10 := by omega
      simp [decimalValue, digitChar_value _ (Nat.mod_lt n (by decide : 10 > 0))]
      omega
    · rename_i h0
      rw [toDigitsCore_append, decimalValue_append, ih (n / 10) (by omega),
        digitChar_value _ (Nat.mod_lt n (by decide : 10 > 0))]
      omega

theorem decimalValue_toString (n : Nat) : decimalValue (toString n).data = n := by
  show decimalValue (Nat.repr n).data = n
  simp only [Nat.repr, List.asString]
  exact decimalValue_toDigitsCore (n + 1) n (by omega)

theorem toString_injective {m n : Nat} (h : toString m = toString n) : m = n := by
  have := congrArg (fun s => decimalValue s.data) h
  simpa [decimalValue_toString] using this

/-! ## Frame lemmas -/

theorem _releaseCleanup_sessions (t : Transport) (session : String) (debugLink : Bool) :
    (_releaseCleanup t session debugLink).1.sessions = t.sessions := by
  unfold _releaseCleanup
  cases debugLink <;> simp only [Transport.deferedOf] <;> split <;> simp

theorem _releaseCleanup_counter (t : Transport) (session : String) (debugLink : Bool) :
    (_releaseCleanup t session debugLink).1.sessionIdCounter = t.sessionIdCounter := by
  unfold _releaseCleanup
  cases debugLink <;> simp only [Transport.deferedOf] <;> split <;> simp

theorem _releaseCleanup_other (t : Transport) (session : String) (debugLink : Bool) :
    (_releaseCleanup t session debugLink).1.deferedOf (!debugLink) = t.deferedOf (!debugLink) := by
  unfold _releaseCleanup
  cases debugLink <;> simp [Transport.deferedOf] <;> split <;> rfl

theorem releaseUnconnected_sessions (connected : JsObject Bool) (debugLink : Bool)
    (sessions : List String) (t : Transport) :
    (releaseUnconnected connected debugLink sessions t).1.sessions = t.sessions
      ∧ (releaseUnconnected connected debugLink sessions t).1.sessionIdCounter
          = t.sessionIdCounter := by
  unfold releaseUnconnected
  generalize ([] : List Effect) = effects
  induction sessions generalizing t effects with
  | nil => simp
  | cons s rest ih =>
    simp only [List.foldl_cons]
    split
    · have h := ih (_releaseCleanup t s debugLink).1 (effects ++ (_releaseCleanup t s debugLink).2)
      rw [_releaseCleanup_sessions, _releaseCleanup_counter] at h
      exact h
    · exact ih t effects

theorem _releaseDisconnected_sessions (t : Transport)
    (devices : List TrezorDeviceInfoWithSession) :
    (_releaseDisconnected t devices).1.sessions = t.sessions
      ∧ (_releaseDisconnected t devices).1.sessionIdCounter = t.sessionIdCounter := by
  unfold _releaseDisconnected
  simp only
  constructor
  · rw [(releaseUnconnected_sessions _ _ _ _).1, (releaseUnconnected_sessions _ _ _ _).1]
  · rw [(releaseUnconnected_sessions _ _ _ _).2, (releaseUnconnected_sessions _ _ _ _).2]

theorem _silentEnumerate_sessions (t : Transport)
    (plugin : Except JsError (List TrezorDeviceInfoDebug)) :
    (_silentEnumerate t plugin).state.sessions = t.sessions
      ∧ (_silentEnumerate t plugin).state.sessionIdCounter = t.sessionIdCounter := by
  unfold _silentEnumerate
  cases plugin with
  | error e => simp
  | ok devices => exact _releaseDisconnected_sessions t _

theorem _runIter_sessions (plugin : Nat → Except JsError (List TrezorDeviceInfoDebug))
    (fuel : Nat) : ∀ (t : Transport) (iteration : Nat) (old : String) (done : List Effect)
      (r : Outcome (List TrezorDeviceInfoWithSession)),
      _runIter plugin fuel t iteration old done = some r →
        r.state.sessions = t.sessions ∧ r.state.sessionIdCounter = t.sessionIdCounter := by
  induction fuel with
  | zero => intro t iteration old done r h; simp [_runIter] at h
  | succ fuel ih =>
    intro t iteration old done r h
    have hs := _silentEnumerate_sessions t (plugin iteration)
    simp only [_runIter] at h
    split at h
    · simp only [Option.some.injEq] at h
      subst h
      exact hs
    · split at h
      · simp only [Option.some.injEq] at h
        subst h
        exact hs
      · have := ih _ _ _ _ r h
        rw [hs.1, hs.2] at this
        exact this

theorem _runIter_returns (plugin : Nat → Except JsError (List TrezorDeviceInfoDebug))
    (fuel : Nat) : ∀ (t : Transport) (iteration : Nat) (old : String) (done : List Effect),
      ITER_MAX < iteration + fuel → iteration ≤ ITER_MAX →
        (_runIter plugin fuel t iteration old done).isSome = true := by
  induction fuel with
  | zero => intro t iteration old done h1 h2; omega
  | succ fuel ih =>
    intro t iteration old done h1 h2
    simp only [_runIter]
    split
    · rfl
    · split
      · rfl
      · rename_i hc
        have hne : iteration ≠ ITER_MAX := fun h => hc (Or.inr h)
        exact ih _ _ _ _ (by omega) (by omega)

theorem listen_returns (t : Transport) (old : Option (List TrezorDeviceInfoWithSession))
    (plugin : Nat → Except JsError (List TrezorDeviceInfoDebug)) :
    (listen t old plugin).isSome = true :=
  _runIter_returns plugin _ _ _ _ _ (by simp [ITER_MAX]) (by simp)

theorem acquire_counter (t : Transport) (input : AcquireInput) (debugLink : Bool)
    (connect : Except JsError Unit) :
    ((acquire t input debugLink connect).result = .ok (toString t.sessionIdCounter)
        ∧ (acquire t input debugLink connect).state.sessionIdCounter = t.sessionIdCounter + 1)
      ∨ ((∃ e, (acquire t input debugLink connect).result = .error e)
        ∧ (acquire t input debugLink connect).state = t) := by
  unfold acquire
  simp only
  split
  · exact Or.inr ⟨⟨_, rfl⟩, rfl⟩
  · cases connect with
    | error e => exact Or.inr ⟨⟨_, rfl⟩, rfl⟩
    | ok u => cases debugLink <;> exact Or.inl ⟨rfl, rfl⟩

theorem release_sessions (t : Transport) (session : String) (onclose debugLink : Bool)
    (disconnect : Except JsError Unit) :
    (release t session onclose debugLink disconnect).state.sessions = t.sessions
      ∧ (release t session onclose debugLink disconnect).state.sessionIdCounter
          = t.sessionIdCounter := by
  unfold release
  simp only
  split
  · exact ⟨rfl, rfl⟩
  · cases disconnect <;> exact ⟨_releaseCleanup_sessions _ _ _, _releaseCleanup_counter _ _ _⟩

theorem step_counter {t t1 : Transport} {ret : Returned} (op : Op)
    (h : step t op = some (t1, ret)) :
    (ret = .session (toString t.sessionIdCounter)
        ∧ t1.sessionIdCounter = t.sessionIdCounter + 1)
      ∨ (tokens [ret] = [] ∧ t1.sessionIdCounter = t.sessionIdCounter) := by
  cases op with
  | enumerate plugin =>
    simp only [step, enumerate, Option.some.injEq, Prod.mk.injEq] at h
    obtain ⟨h1, h2⟩ := h
    subst h1 h2
    refine Or.inr ⟨?_, (_silentEnumerate_sessions t plugin).2⟩
    cases (_silentEnumerate t plugin).result <;> rfl
  | listen old plugin =>
    simp only [step, Option.map_eq_some', Prod.mk.injEq] at h
    obtain ⟨r, hr, h1, h2⟩ := h
    subst h1 h2
    refine Or.inr ⟨?_, (_runIter_sessions plugin _ _ _ _ _ r hr).2⟩
    cases r.result <;> rfl
  | acquire input debugLink connect =>
    simp only [step, Option.some.injEq, Prod.mk.injEq] at h
    obtain ⟨h1, h2⟩ := h
    subst h1 h2
    rcases acquire_counter t input debugLink connect with ⟨hr, hc⟩ | ⟨⟨e, hr⟩, hc⟩
    · exact Or.inl ⟨by rw [hr]; rfl, hc⟩
    · exact Or.inr ⟨by rw [hr]; rfl, by rw [hc]⟩
  | release session onclose debugLink disconnect =>
    simp only [step, Option.some.injEq, Prod.mk.injEq] at h
    obtain ⟨h1, h2⟩ := h
    subst h1 h2
    refine Or.inr ⟨?_, (release_sessions t session onclose debugLink disconnect).2⟩
    cases (release t session onclose debugLink disconnect).result <;> rfl

theorem step_returns (t : Transport) (op : Op) : (step t op).isSome = true := by
  cases op with
  | listen old plugin =>
    have := listen_returns t old plugin
    simp only [step, Option.isSome_map']
    exact this
  | _ => rfl

theorem run_returns (ops : List Op) : ∀ t : Transport, (run t ops).isSome = true := by
  induction ops with
  | nil => intro t; rfl
  | cons op ops ih =>
    intro t
    have h1 := step_returns t op
    simp only [run]
    cases hs : step t op with
    | none => simp [hs] at h1
    | some p =>
      obtain ⟨t1, ret⟩ := p
      have h2 := ih t1
      cases hr : run t1 ops with
      | none => simp [hr] at h2
      | some q => simp [hr]

theorem tokens_cons (ret : Returned) (rets : List Returned) :
    tokens (ret :: rets) = tokens [ret] ++ tokens rets := by
  cases ret <;> rfl

theorem run_tokens (ops : List Op) : ∀ (t final : Transport) (rets : List Returned),
    run t ops = some (final, rets) →
      t.sessionIdCounter ≤ final.sessionIdCounter
        ∧ tokens rets
          = (List.range' t.sessionIdCounter (final.sessionIdCounter - t.sessionIdCounter)).map
              toString := by
  induction ops with
  | nil =>
    intro t final rets h
    simp only [run, Option.some.injEq, Prod.mk.injEq] at h
    obtain ⟨h1, h2⟩ := h
    subst h1 h2
    simp [tokens]
  | cons op ops ih =>
    intro t final rets h
    simp only [run] at h
    cases hs : step t op with
    | none => simp [hs] at h
    | some p =>
      obtain ⟨t1, ret⟩ := p
      cases hr : run t1 ops with
      | none => simp [hs, hr] at h
      | some q =>
        obtain ⟨t2, rets1⟩ := q
        simp only [hs, hr, Option.some.injEq, Prod.mk.injEq] at h
        obtain ⟨h1, h2⟩ := h
        subst h1 h2
        obtain ⟨hle, htok⟩ := ih t1 t2 rets1 hr
        rw [tokens_cons, htok]
        rcases step_counter op hs with ⟨hret, hc⟩ | ⟨hret, hc⟩
        · subst hret
          refine ⟨by omega, ?_⟩
          have : t2.sessionIdCounter - t.sessionIdCounter
              = (t2.sessionIdCounter - t1.sessionIdCounter) + 1 := by omega
          rw [this, List.range'_succ, hc]
          rfl
        · rw [hret, hc]
          exact ⟨by omega, rfl⟩


/-! ## Looking a session up -/

theorem lookup_mem {α : Type} (obj : JsObject α) (key : String) (v : α)
    (h : obj.get key = some v) : (key, v) ∈ obj := by
  unfold JsObject.get at h
  induction obj with
  | nil => simp [List.lookup] at h
  | cons e rest ih =>
    obtain ⟨k, w⟩ := e
    simp only [List.lookup] at h
    split at h
    · rename_i hk
      have hk2 : key = k := by simpa using hk
      simp only [Option.some.injEq] at h
      subst h hk2
      exact List.mem_cons_self _ _
    · exact List.mem_cons_of_mem _ (ih h)

theorem mem_entries {α : Type} (obj : JsObject α) (e : String × α) :
    e ∈ JsObject.entries obj ↔ e ∈ obj := by
  unfold JsObject.entries
  rw [List.mem_append, (List.perm_insertionSort _ _).mem_iff, List.mem_filter, List.mem_filter]
  cases isArrayIndex e.1 <;> simp

theorem get_mem_keys {α : Type} (obj : JsObject α) (key : String) (v : α)
    (h : obj.get key = some v) : key ∈ JsObject.keys obj := by
  unfold JsObject.keys
  exact List.mem_map.mpr ⟨(key, v), (mem_entries obj _).mpr (lookup_mem obj key v h), rfl⟩

theorem foldl_last_none (p : String → Bool) (l : List String) :
    ∀ init : Option String, (∀ k ∈ l, p k = false) →
      l.foldl (fun acc k => if p k then some k else acc) init = init := by
  induction l with
  | nil => intro init _; rfl
  | cons k rest ih =>
    intro init h
    simp only [List.foldl_cons, h k (List.mem_cons_self _ _)]
    exact ih init (fun k hk => h k (List.mem_cons_of_mem _ hk))

theorem foldl_last_some (p : String → Bool) (l : List String) :
    ∀ init : Option String, (∃ k ∈ l, p k = true) →
      ∃ k ∈ l, p k = true ∧ l.foldl (fun acc k => if p k then some k else acc) init = some k := by
  induction l with
  | nil => intro init h; obtain ⟨k, hk, _⟩ := h; cases hk
  | cons k rest ih =>
    intro init h
    simp only [List.foldl_cons]
    by_cases hr : ∃ k ∈ rest, p k = true
    · obtain ⟨k1, hk1, hp, he⟩ := ih (if p k = true then some k else init) hr
      exact ⟨k1, List.mem_cons_of_mem _ hk1, hp, he⟩
    · have hrest : ∀ k ∈ rest, p k = false := by
        intro k1 hk1
        cases hp : p k1 with
        | false => rfl
        | true => exact absurd ⟨k1, hk1, hp⟩ hr
      obtain ⟨k1, hk1, hp⟩ := h
      have hk : p k = true := by
        rcases List.mem_cons.mp hk1 with e | e
        · rw [← e]; exact hp
        · rw [hrest k1 e] at hp; cases hp
      rw [foldl_last_none p rest _ hrest]
      exact ⟨k, List.mem_cons_self _ _, hk, by simp [hk]⟩

theorem doWithSession_unknown {X : Type} (t later : Transport) (session : String)
    (debugLink : Bool) (inside : String → Except JsError X × List Effect)
    (h : ∀ path, (t.sessionsOf debugLink).get path ≠ some session) :
    doWithSession t later session debugLink inside
      = ⟨.error (.error "Session not available."), t, []⟩ := by
  unfold doWithSession
  simp only
  have := foldl_last_none (fun kpath => decide ((t.sessionsOf debugLink).get kpath = some session))
    (JsObject.keys (t.sessionsOf debugLink)) none (fun k _ => by simpa using h k)
  simp only [decide_eq_true_eq] at this
  rw [this]

theorem doWithSession_known {X : Type} (t later : Transport) (session : String)
    (debugLink : Bool) (inside : String → Except JsError X × List Effect)
    (h : ∃ path, (t.sessionsOf debugLink).get path = some session) :
    ∃ path, (t.sessionsOf debugLink).get path = some session
      ∧ doWithSession t later session debugLink inside
        = (match (inside path).1 with
          | .error e => ⟨.error e, later, (inside path).2⟩
          | .ok resPromise =>
            match (later.deferedOf debugLink).get session with
            | none =>
              ⟨.error (.typeError
                "Cannot read properties of undefined (reading rejectingPromise)"),
                later, (inside path).2⟩
            | some defered =>
              match defered.rejection with
              | some reason => ⟨.error reason, later, (inside path).2⟩
              | none => ⟨.ok resPromise, later, (inside path).2⟩) := by
  obtain ⟨path, hp⟩ := h
  obtain ⟨k, _, hk, he⟩ := foldl_last_some
    (fun kpath => decide ((t.sessionsOf debugLink).get kpath = some session))
    (JsObject.keys (t.sessionsOf debugLink)) none
    ⟨path, get_mem_keys _ _ _ hp, by simpa using hp⟩
  simp only [decide_eq_true_eq] at hk he
  refine ⟨k, hk, ?_⟩
  unfold doWithSession
  simp only
  rw [he]

/-! ## The descriptor list of `enumerate` -/

theorem arraySort_perm
    (comparefn : TrezorDeviceInfoWithSession → TrezorDeviceInfoWithSession → Option Double)
    (devices : List TrezorDeviceInfoWithSession) :
    (arraySort comparefn devices).Perm devices :=
  List.perm_insertionSort _ _

theorem _silentEnumerate_result (t : Transport) (devices : List TrezorDeviceInfoDebug) :
    (_silentEnumerate t (.ok devices)).result
      = .ok (arraySort compare (devices.map (fun device =>
          ({ path := device.path
             session := MaybeString.ofOption (t.sessions.normalSessions.get device.path)
             debug := device.debug
             debugSession := MaybeString.ofOption (t.sessions.debugSessions.get device.path) }
            : TrezorDeviceInfoWithSession)))) :=
  rfl

/-! ## `parseInt` on decimal digits and the numeric order -/

theorem bitLengthAux_le (fuel : Nat) : ∀ (n k : Nat), n < 2 ^ k → bitLengthAux fuel n ≤ k := by
  induction fuel with
  | zero => intro n k _; exact Nat.zero_le _
  | succ fuel ih =>
    intro n k h
    simp only [bitLengthAux]
    split
    · exact Nat.zero_le _
    · rename_i hn
      cases k with
      | zero => simp at h; exact absurd h hn
      | succ k =>
        have : n / 2 < 2 ^ k := by
          rw [Nat.div_lt_iff_lt_mul (by decide)]
          rw [Nat.pow_succ] at h
          exact h
        have := ih (n / 2) k this
        omega

theorem roundToDouble_small (n : Int) (h : n.natAbs < 2 ^ 53) :
    roundToDouble n = .finite n := by
  have hb : bitLength n.natAbs - 53 = 0 := by
    have := bitLengthAux_le n.natAbs n.natAbs 53 h
    unfold bitLength
    omega
  unfold roundToDouble
  simp only [hb, Nat.pow_zero, Nat.div_one, Nat.mod_one, Nat.mul_one, Nat.mul_zero]
  have h1 : ¬ (0 > 1 ∨ (0 = 1 ∧ n.natAbs % 2 = 1)) := by omega
  rw [if_neg h1]
  have h2 : ¬ bitLength n.natAbs > 1024 := by
    have := bitLengthAux_le n.natAbs n.natAbs 53 h
    unfold bitLength
    omega
  rw [if_neg h2]
  congr 1
  split <;> omega

theorem roundToDouble_exact (n : Int) (h : n.natAbs ≤ 2 ^ 53) :
    roundToDouble n = .finite n := by
  rcases Nat.lt_or_eq_of_le h with h1 | h1
  · exact roundToDouble_small n h1
  · rcases Int.natAbs_eq n with h2 | h2
    · rw [h1] at h2
      rw [h2]
      decide
    · rw [h1] at h2
      rw [h2]
      decide

theorem isDigit_cases {c : Char} (h : c.isDigit = true) :
    c ∈ ['0', '1', '2', '3', '4', '5', '6', '7', '8', '9'] := by
  simp only [Char.isDigit, Bool.and_eq_true, decide_eq_true_eq] at h
  obtain ⟨h1, h2⟩ := h
  have h3 : 48 ≤ c.toNat := h1
  have h4 : c.toNat ≤ 57 := h2
  have h5 : c = Char.ofNat c.toNat := (Char.ofNat_toNat c).symm
  generalize c.toNat = n at h3 h4 h5
  subst h5
  interval_cases n <;> decide

theorem digitValue_digit {c : Char} (h : c.isDigit = true) :
    digitValue 10 c = some (c.toNat - 48) := by
  have := isDigit_cases h
  simp only [List.mem_cons, List.mem_singleton, List.not_mem_nil, or_false] at this
  rcases this with h | h | h | h | h | h | h | h | h | h <;> subst h <;> decide

theorem not_white_digit {c : Char} (h : c.isDigit = true) : isStrWhiteSpaceChar c = false := by
  have := isDigit_cases h
  simp only [List.mem_cons, List.mem_singleton, List.not_mem_nil, or_false] at this
  rcases this with h | h | h | h | h | h | h | h | h | h <;> subst h <;> decide

theorem digits_of_all (cs : List Char) (h : cs.all Char.isDigit = true) :
    (cs.takeWhile (fun c => (digitValue 10 c).isSome)).filterMap (digitValue 10)
      = cs.map (fun c => c.toNat - 48) := by
  induction cs with
  | nil => rfl
  | cons c rest ih =>
    simp only [List.all_cons, Bool.and_eq_true] at h
    have hd := digitValue_digit h.1
    simp only [List.takeWhile_cons, hd, Option.isSome_some, if_true, List.filterMap_cons,
      List.map_cons, ih h.2]

theorem foldl_digits (cs : List Char) (init : Nat) :
    (cs.map (fun c => c.toNat - 48)).foldl (fun n d => 10 * n + d) init
      = cs.foldl (fun n c => 10 * n + (c.toNat - 48)) init := by
  rw [List.foldl_map]

theorem parseInt_digits (s : String) (hne : s.data ≠ [])
    (hd : s.data.all Char.isDigit = true) :
    parseInt s = some (roundToDouble (decimalValue s.data : Int)) := by
  unfold parseInt
  cases hs : s.data with
  | nil => exact absurd hs hne
  | cons c rest =>
    rw [hs] at hd
    have hall := hd
    simp only [List.all_cons, Bool.and_eq_true] at hd
    have hw := not_white_digit hd.1
    have hc := isDigit_cases hd.1
    have htrim : List.dropWhile isStrWhiteSpaceChar (c :: rest) = c :: rest := by
      simp [List.dropWhile_cons, hw]
    simp only [htrim]
    have hsigned : (match c :: rest with
        | '-' :: rest => ((-1 : Int), rest)
        | '+' :: rest => (1, rest)
        | _ => (1, c :: rest)) = (1, c :: rest) := by
      split
      · rename_i heq
        simp only [List.cons.injEq] at heq
        rw [heq.1] at hd
        exact absurd hd.1 (by decide)
      · rename_i heq
        simp only [List.cons.injEq] at heq
        rw [heq.1] at hd
        exact absurd hd.1 (by decide)
      · rfl
    rw [hsigned]
    have hbased : (match c :: rest with
        | '0' :: 'x' :: rest => (16, rest)
        | '0' :: 'X' :: rest => (16, rest)
        | _ => (10, c :: rest)) = (10, c :: rest) := by
      split
      · rename_i heq
        simp only [List.cons.injEq] at heq
        obtain ⟨_, h2⟩ := heq
        rw [h2] at hd
        simp only [List.all_cons, Bool.and_eq_true] at hd
        exact absurd hd.2.1 (by decide)
      · rename_i heq
        simp only [List.cons.injEq] at heq
        obtain ⟨_, h2⟩ := heq
        rw [h2] at hd
        simp only [List.all_cons, Bool.and_eq_true] at hd
        exact absurd hd.2.1 (by decide)
      · rfl
    simp only [hbased]
    rw [digits_of_all _ hall, foldl_digits]
    have hlist : ((List.map (fun c => c.toNat - 48) (c :: rest)).isEmpty = true) = False := by
      simp
    simp only [hlist, if_false, one_mul]
    rfl

theorem orderedInsert_congr {α : Type} (r r2 : α → α → Prop) [DecidableRel r] [DecidableRel r2]
    (a : α) (l : List α) (h : ∀ b ∈ l, (r a b ↔ r2 a b)) :
    List.orderedInsert r a l = List.orderedInsert r2 a l := by
  induction l with
  | nil => rfl
  | cons b rest ih =>
    have hb := h b (List.mem_cons_self _ _)
    have hrest := ih (fun x hx => h x (List.mem_cons_of_mem _ hx))
    simp only [List.orderedInsert]
    by_cases hr : r a b
    · simp [hr, hb.mp hr]
    · have hr2 : ¬ r2 a b := fun h2 => hr (hb.mpr h2)
      simp [hr, hr2, hrest]

theorem insertionSort_congr {α : Type} (r r2 : α → α → Prop) [DecidableRel r] [DecidableRel r2]
    (l : List α) (h : ∀ a ∈ l, ∀ b ∈ l, (r a b ↔ r2 a b)) :
    List.insertionSort r l = List.insertionSort r2 l := by
  induction l with
  | nil => rfl
  | cons a rest ih =>
    have hrest := ih (fun x hx y hy => h x (List.mem_cons_of_mem _ hx) y (List.mem_cons_of_mem _ hy))
    simp only [List.insertionSort]
    rw [hrest]
    apply orderedInsert_congr
    intro b hb
    exact h a (List.mem_cons_self _ _) b
      (List.mem_cons_of_mem _ ((List.mem_insertionSort r2).mp hb))

theorem sign_nonpos_iff (d : Int) : d.sign ≤ 0 ↔ d ≤ 0 := by
  rcases lt_trichotomy d 0 with h | h | h
  · rw [Int.sign_eq_neg_one_of_neg h]; omega
  · rw [h]; simp
  · rw [Int.sign_eq_one_of_pos h]; omega

theorem compare_numeric (a b : TrezorDeviceInfoWithSession) (x y : Nat)
    (ha : parseInt a.path = some (.finite x)) (hb : parseInt b.path = some (.finite y))
    (hx : x ≤ 2 ^ 53) (hy : y ≤ 2 ^ 53) :
    compare a b = some (.finite ((x : Int) - (y : Int))) := by
  have hxy : ((x : Int) - (y : Int)).natAbs ≤ 2 ^ 53 := by omega
  simp only [compare, ha, hb, Double.sub]
  rw [roundToDouble_exact _ hxy]

theorem arraySort_numeric (key : TrezorDeviceInfoWithSession → Nat)
    (l : List TrezorDeviceInfoWithSession)
    (h : ∀ d ∈ l, parseInt d.path = some (.finite (key d)) ∧ key d ≤ 2 ^ 53) :
    (arraySort compare l).Pairwise (fun a b => key a ≤ key b) := by
  have hc : arraySort compare l = l.insertionSort (fun a b => key a ≤ key b) := by
    unfold arraySort
    apply insertionSort_congr
    intro a ha b hb
    rw [compare_numeric a b _ _ (h a ha).1 (h b hb).1 (h a ha).2 (h b hb).2]
    simp only [Option.map_some', Option.getD_some, Double.sign, sign_nonpos_iff]
    omega
  rw [hc]
  haveI : IsTotal TrezorDeviceInfoWithSession (fun a b => key a ≤ key b) :=
    ⟨fun a b => le_total (key a) (key b)⟩
  haveI : IsTrans TrezorDeviceInfoWithSession (fun a b => key a ≤ key b) :=
    ⟨fun a b c hab hbc => le_trans hab hbc⟩
  exact List.sorted_insertionSort (fun a b => key a ≤ key b) l

/-! ## The effects and the rounds of `listen` -/

theorem _releaseCleanup_effects (t : Transport) (session : String) (debugLink : Bool) :
    ∀ e ∈ (_releaseCleanup t session debugLink).2, ∃ s d r, e = Effect.rejected s d r := by
  unfold _releaseCleanup
  simp only
  split
  · intro e he
    simp only [List.mem_singleton] at he
    exact ⟨_, _, _, he⟩
  · intro e he
    cases he

theorem releaseUnconnected_effects (connected : JsObject Bool) (debugLink : Bool)
    (sessions : List String) (t : Transport) :
    ∀ e ∈ (releaseUnconnected connected debugLink sessions t).2,
      ∃ s d r, e = Effect.rejected s d r := by
  unfold releaseUnconnected
  have key : ∀ (sessions : List String) (t : Transport) (effects : List Effect),
      (∀ e ∈ effects, ∃ s d r, e = Effect.rejected s d r) →
      ∀ e ∈ (sessions.foldl (fun acc session =>
          if (connected.get session).isNone then
            ((_releaseCleanup acc.1 session debugLink).1,
              acc.2 ++ (_releaseCleanup acc.1 session debugLink).2)
          else acc) (t, effects)).2, ∃ s d r, e = Effect.rejected s d r := by
    intro sessions
    induction sessions with
    | nil => intro t effects h; exact h
    | cons s rest ih =>
      intro t effects h
      simp only [List.foldl_cons]
      split
      · apply ih
        intro e he
        rcases List.mem_append.mp he with h1 | h1
        · exact h e h1
        · exact _releaseCleanup_effects _ _ _ e h1
      · exact ih t effects h
  exact key sessions t [] (fun e he => by cases he)

theorem _releaseDisconnected_effects (t : Transport)
    (devices : List TrezorDeviceInfoWithSession) :
    ∀ e ∈ (_releaseDisconnected t devices).2, ∃ s d r, e = Effect.rejected s d r := by
  unfold _releaseDisconnected
  simp only
  intro e he
  rcases List.mem_append.mp he with h | h
  · exact releaseUnconnected_effects _ _ _ _ e h
  · exact releaseUnconnected_effects _ _ _ _ e h

theorem count_of_rejected (x : Effect) (hx : ∀ s d r, x ≠ Effect.rejected s d r)
    (l : List Effect) (h : ∀ e ∈ l, ∃ s d r, e = Effect.rejected s d r) : l.count x = 0 := by
  rw [List.count_eq_zero]
  intro hmem
  obtain ⟨s, d, r, he⟩ := h x hmem
  exact hx s d r he

theorem _silentEnumerate_counts (t : Transport)
    (plugin : Except JsError (List TrezorDeviceInfoDebug)) :
    (_silentEnumerate t plugin).effects.count Effect.pluginEnumerate = 1
      ∧ ∀ ms, (_silentEnumerate t plugin).effects.count (Effect.timeout ms) = 0 := by
  cases plugin with
  | error e => exact ⟨by simp [_silentEnumerate], fun ms => by simp [_silentEnumerate]⟩
  | ok devices =>
    simp only [_silentEnumerate]
    constructor
    · rw [List.count_cons_self, count_of_rejected _ (by intro s d r h; cases h) _
        (_releaseDisconnected_effects t _)]
    · intro ms
      rw [List.count_cons_of_ne (by intro h; cases h), count_of_rejected _
        (by intro s d r h; cases h) _ (_releaseDisconnected_effects t _)]

theorem _silentEnumerate_result_congr (t1 t2 : Transport)
    (plugin : Except JsError (List TrezorDeviceInfoDebug)) (h : t1.sessions = t2.sessions) :
    (_silentEnumerate t1 plugin).result = (_silentEnumerate t2 plugin).result := by
  cases plugin with
  | error e => rfl
  | ok devices => simp only [_silentEnumerate, h]

/-- The rounds of `_runIter` when no round sees a change: from round
`iteration` on every pass is made, the last one in round `ITER_MAX`. -/
theorem _runIter_unchanged (plugin : Nat → Except JsError (List TrezorDeviceInfoDebug))
    (t0 : Transport) (baseline : String)
    (h : ∀ i, i ≤ ITER_MAX → ∃ devices,
      (_silentEnumerate t0 (plugin i)).result = .ok devices
        ∧ stableStringify (some devices) = baseline)
    (fuel : Nat) : ∀ (t : Transport) (iteration : Nat) (done : List Effect),
      t.sessions = t0.sessions → iteration + fuel = ITER_MAX + 1 → iteration ≤ ITER_MAX →
      ∃ r, _runIter plugin fuel t iteration baseline done = some r
        ∧ r.result = (_silentEnumerate t0 (plugin ITER_MAX)).result
        ∧ r.state._lastStringified = baseline
        ∧ r.effects.count Effect.pluginEnumerate
            = done.count Effect.pluginEnumerate + fuel
        ∧ r.effects.count (Effect.timeout ITER_DELAY) + 1
            = done.count (Effect.timeout ITER_DELAY) + fuel := by
  induction fuel with
  | zero =>
    intro t iteration done hs hf hi
    omega
  | succ fuel ih =>
    intro t iteration done hs hf hi
    obtain ⟨devices, h1, h2⟩ := h iteration hi
    have hres : (_silentEnumerate t (plugin iteration)).result = .ok devices := by
      rw [_silentEnumerate_result_congr t t0 _ hs, h1]
    have hcount := _silentEnumerate_counts t (plugin iteration)
    simp only [_runIter]
    split
    · rename_i e he
      rw [hres] at he
      cases he
    · rename_i devices2 he
      rw [hres] at he
      cases he
      by_cases hlast : iteration = ITER_MAX
      · have hfuel : fuel = 0 := by omega
        subst hfuel
        rw [if_pos (Or.inr hlast)]
        refine ⟨_, rfl, ?_, ?_, ?_, ?_⟩
        · show Except.ok devices = _
          rw [← hlast, h1]
        · exact h2
        · simp only [List.count_append, hcount.1]
        · simp only [List.count_append, hcount.2]
      · have hcond : ¬ (stableStringify (some devices) ≠ baseline ∨ iteration = ITER_MAX) := by
          intro hc
          rcases hc with hc | hc
          · exact hc h2
          · exact hlast hc
        rw [if_neg hcond]
        obtain ⟨r, hr, hr1, hr2, hr3, hr4⟩ := ih (_silentEnumerate t (plugin iteration)).state
          (iteration + 1)
          (done ++ (_silentEnumerate t (plugin iteration)).effects ++ [Effect.timeout ITER_DELAY])
          (by rw [(_silentEnumerate_sessions t _).1, hs]) (by omega) (by omega)
        rw [h2]
        refine ⟨r, hr, hr1, hr2, ?_, ?_⟩
        · rw [hr3]
          simp only [List.count_append, hcount.1]
          rw [List.count_singleton']
          simp
          omega
        · rw [hr4]
          simp only [List.count_append, hcount.2]
          rw [List.count_singleton']
          simp
          omega

theorem _runIter_changed (plugin : Nat → Except JsError (List TrezorDeviceInfoDebug))
    (fuel : Nat) (t : Transport) (iteration : Nat) (old : String) (done : List Effect)
    (devices : List TrezorDeviceInfoWithSession)
    (h0 : (_silentEnumerate t (plugin iteration)).result = .ok devices)
    (hne : stableStringify (some devices) ≠ old) :
    _runIter plugin (fuel + 1) t iteration old done
      = some ⟨.ok devices, { (_silentEnumerate t (plugin iteration)).state with
            _lastStringified := stableStringify (some devices) },
          done ++ (_silentEnumerate t (plugin iteration)).effects⟩ := by
  simp only [_runIter, h0]
  rw [if_pos (Or.inl hne)]

theorem _runIter_counts (plugin : Nat → Except JsError (List TrezorDeviceInfoDebug))
    (fuel : Nat) : ∀ (t : Transport) (iteration : Nat) (old : String) (done : List Effect)
      (r : Outcome (List TrezorDeviceInfoWithSession)),
      _runIter plugin fuel t iteration old done = some r →
        done.count Effect.pluginEnumerate + 1 ≤ r.effects.count Effect.pluginEnumerate
          ∧ done.count (Effect.timeout ITER_DELAY)
              ≤ r.effects.count (Effect.timeout ITER_DELAY) := by
  induction fuel with
  | zero => intro t iteration old done r h; simp [_runIter] at h
  | succ fuel ih =>
    intro t iteration old done r h
    have hc := _silentEnumerate_counts t (plugin iteration)
    simp only [_runIter] at h
    split at h
    · simp only [Option.some.injEq] at h
      subst h
      simp [List.count_append, hc.1]
    · split at h
      · simp only [Option.some.injEq] at h
        subst h
        simp [List.count_append, hc.1]
      · have := ih _ _ _ _ r h
        simp only [List.count_append, hc.1, hc.2] at this
        omega

theorem stableStringify_congr (l1 l2 : List TrezorDeviceInfoWithSession)
    (h : List.Forall₂ (fun a b => a.path = b.path
      ∧ (a.session = b.session ∨ (a.session.isNullish = true ∧ b.session.isNullish = true)))
      l1 l2) :
    stableStringify (some l1) = stableStringify (some l2) := by
  have hm : l1.map (fun device =>
        (device.path, if device.session.isNullish then MaybeString.null else device.session))
      = l2.map (fun device =>
        (device.path, if device.session.isNullish then MaybeString.null else device.session)) := by
    induction h with
    | nil => rfl
    | cons hab _ ih =>
      simp only [List.map_cons, ih, List.cons.injEq, and_true, Prod.mk.injEq]
      refine ⟨hab.1, ?_⟩
      rcases hab.2 with h | ⟨h1, h2⟩
      · rw [h]
      · simp [h1, h2]
  simp only [stableStringify]
  rw [hm]

/-! ## Writes to a dictionary and the recorded sessions -/

theorem lookup_cons_eq {α : Type} (k a : String) (w : α) (rest : List (String × α)) :
    List.lookup k ((a, w) :: rest) = if k = a then some w else List.lookup k rest := by
  by_cases h : k = a
  · subst h; simp [List.lookup]
  · have h2 : (k == a) = false := by simpa using h
    simp [List.lookup, h2, h]

theorem lookup_map_set {α : Type} (key : String) (value : α) (k : String) (obj : JsObject α) :
    List.lookup k (obj.map (fun e => if e.1 == key then (key, value) else e))
      = if k = key then (if obj.any (fun e => e.1 == key) then some value else none)
        else List.lookup k obj := by
  induction obj with
  | nil => simp
  | cons e rest ih =>
    obtain ⟨a, w⟩ := e
    rw [List.map_cons, List.any_cons]
    by_cases hak : a = key
    · have h1 : ((a, w).1 == key) = true := by simpa using hak
      rw [if_pos h1, lookup_cons_eq, lookup_cons_eq, ih, h1]
      by_cases hk : k = key
      · simp [hk]
      · have hka : ¬ k = a := fun h => hk (h.trans hak)
        simp [hk, hka]
    · have h1 : ((a, w).1 == key) = false := by simpa using hak
      have h2 : ¬ ((a, w).1 == key) = true := by simp [h1]
      rw [if_neg h2, lookup_cons_eq, lookup_cons_eq, ih, h1]
      by_cases hk : k = key
      · have hka : ¬ key = a := fun h => hak h.symm
        subst hk
        rw [if_neg hka, if_pos rfl, if_pos rfl]
        rfl
      · simp [hk]

theorem lookup_append_new {α : Type} (key : String) (value : α) (k : String)
    (obj : JsObject α) (h : obj.any (fun e => e.1 == key) = false) :
    List.lookup k (obj ++ [(key, value)])
      = if k = key then some value else List.lookup k obj := by
  induction obj with
  | nil =>
    rw [List.nil_append, lookup_cons_eq]
  | cons e rest ih =>
    obtain ⟨a, w⟩ := e
    simp only [List.any_cons, Bool.or_eq_false_iff] at h
    have hak : a ≠ key := by simpa using h.1
    rw [List.cons_append, lookup_cons_eq, lookup_cons_eq, ih h.2]
    by_cases hka : k = a
    · have : ¬ k = key := fun h => hak (hka.symm.trans h)
      simp [hka, hak]
    · simp [hka]

theorem get_set {α : Type} (obj : JsObject α) (key : String) (value : α) (k : String) :
    (obj.set key value).get k = if k = key then some value else obj.get k := by
  unfold JsObject.set JsObject.get
  by_cases h : obj.any (fun e => e.1 == key) = true
  · rw [if_pos h, lookup_map_set, h]
    simp
  · rw [if_neg h, lookup_append_new _ _ _ _ ((Bool.not_eq_true _).mp h)]

theorem acquire_state (t : Transport) (input : AcquireInput) (debugLink : Bool)
    (connect : Except JsError Unit) :
    (acquire t input debugLink connect).state = t
      ∨ ((acquire t input debugLink connect).state.sessionIdCounter = t.sessionIdCounter + 1
        ∧ (∀ p, ((acquire t input debugLink connect).state.sessionsOf debugLink).get p
            = if p = input.path then some (toString t.sessionIdCounter)
              else (t.sessionsOf debugLink).get p)
        ∧ (acquire t input debugLink connect).state.sessionsOf (!debugLink)
            = t.sessionsOf (!debugLink)) := by
  unfold acquire
  simp only
  split
  · exact Or.inl rfl
  · cases connect with
    | error e => exact Or.inl rfl
    | ok u =>
      refine Or.inr ⟨by cases debugLink <;> rfl, ?_, by cases debugLink <;> rfl⟩
      intro p
      cases debugLink
      · exact get_set _ _ _ _
      · exact get_set _ _ _ _

/-- The invariant behind the uniqueness of records: every recorded session is
the rendering of a number below the counter, and no session is recorded
twice. -/
theorem recorded_invariant (t : Transport) (h : Reachable t) :
    (∀ d p s, (t.sessionsOf d).get p = some s →
        ∃ n, n < t.sessionIdCounter ∧ s = toString n)
      ∧ (∀ d1 d2 p1 p2 s, (t.sessionsOf d1).get p1 = some s →
          (t.sessionsOf d2).get p2 = some s → d1 = d2 ∧ p1 = p2) := by
  induction h with
  | initial =>
    have h0 : ∀ d, Transport.initial.sessionsOf d = [] := by
      intro d; cases d <;> rfl
    constructor
    · intro d p s hs
      rw [h0] at hs
      cases hs
    · intro d1 d2 p1 p2 s hs
      rw [h0] at hs
      cases hs
  | @step t t1 ret op hreach hstep ih =>
    have frame : t1.sessions = t.sessions → t1.sessionIdCounter = t.sessionIdCounter →
        (∀ d p s, (t1.sessionsOf d).get p = some s →
            ∃ n, n < t1.sessionIdCounter ∧ s = toString n)
          ∧ (∀ d1 d2 p1 p2 s, (t1.sessionsOf d1).get p1 = some s →
              (t1.sessionsOf d2).get p2 = some s → d1 = d2 ∧ p1 = p2) := by
      intro hs hc
      have hof : ∀ d, t1.sessionsOf d = t.sessionsOf d := by
        intro d; simp [Transport.sessionsOf, hs]
      simp only [hof, hc]
      exact ih
    cases op with
    | enumerate plugin =>
      simp only [step, enumerate, Option.some.injEq, Prod.mk.injEq] at hstep
      obtain ⟨h1, _⟩ := hstep
      subst h1
      exact frame (_silentEnumerate_sessions t plugin).1 (_silentEnumerate_sessions t plugin).2
    | listen old plugin =>
      simp only [step, Option.map_eq_some', Prod.mk.injEq] at hstep
      obtain ⟨r, hr, h1, _⟩ := hstep
      subst h1
      exact frame (_runIter_sessions plugin _ _ _ _ _ r hr).1
        (_runIter_sessions plugin _ _ _ _ _ r hr).2
    | release session onclose debugLink disconnect =>
      simp only [step, Option.some.injEq, Prod.mk.injEq] at hstep
      obtain ⟨h1, _⟩ := hstep
      subst h1
      exact frame (release_sessions t session onclose debugLink disconnect).1
        (release_sessions t session onclose debugLink disconnect).2
    | acquire input debugLink connect =>
      simp only [step, Option.some.injEq, Prod.mk.injEq] at hstep
      obtain ⟨h1, _⟩ := hstep
      subst h1
      rcases acquire_state t input debugLink connect with hst | ⟨hc, hget, hother⟩
      · rw [hst]; exact ih
      · have hrec : ∀ d p s,
            ((acquire t input debugLink connect).state.sessionsOf d).get p = some s →
              (d = debugLink ∧ p = input.path ∧ s = toString t.sessionIdCounter)
                ∨ (t.sessionsOf d).get p = some s := by
          intro d p s hs
          by_cases hd : d = debugLink
          · subst hd
            rw [hget] at hs
            by_cases hp : p = input.path
            · rw [if_pos hp] at hs
              simp only [Option.some.injEq] at hs
              exact Or.inl ⟨rfl, hp, hs.symm⟩
            · rw [if_neg hp] at hs
              exact Or.inr hs
          · have : d = !debugLink := by
              cases d <;> cases debugLink <;> first | rfl | exact absurd rfl hd
            subst this
            rw [hother] at hs
            exact Or.inr hs
        constructor
        · intro d p s hs
          rcases hrec d p s hs with ⟨_, _, h3⟩ | hold
          · exact ⟨t.sessionIdCounter, by omega, h3⟩
          · obtain ⟨n, hn, he⟩ := ih.1 d p s hold
            exact ⟨n, by omega, he⟩
        · intro d1 d2 p1 p2 s hs1 hs2
          rcases hrec d1 p1 s hs1 with ⟨a1, a2, a3⟩ | hold1
          · rcases hrec d2 p2 s hs2 with ⟨b1, b2, b3⟩ | hold2
            · exact ⟨by rw [a1, b1], by rw [a2, b2]⟩
            · obtain ⟨n, hn, he⟩ := ih.1 d2 p2 s hold2
              have := toString_injective (a3.symm.trans he)
              omega
          · rcases hrec d2 p2 s hs2 with ⟨b1, b2, b3⟩ | hold2
            · obtain ⟨n, hn, he⟩ := ih.1 d1 p1 s hold1
              have := toString_injective (b3.symm.trans he)
              omega
            · exact ih.2 d1 d2 p1 p2 s hold1 hold2

theorem sample_reachable : Reachable Sample.boundNormal :=
  Reachable.step (.acquire ⟨"1", .undefined⟩ false (.ok ())) Reachable.initial rfl

/-! ## The claims -/

/-- C1: when the presented previous session differs from the session on
record for the path in the class (an absent record matching only an absent or
null previous), `acquire` fails with `wrong previous session`, has no effect
on the plugin (`plugin.connect` is not invoked) and leaves the whole state,
so both maps, the counter and both signal tables, as it was. -/
theorem acquire_wrong_previous_rejected (t : Transport) (input : AcquireInput)
    (debugLink : Bool) (connect : Except JsError Unit)
    (h : match (t.sessionsOf debugLink).get input.path with
         | some recorded => input.previous ≠ .str recorded
         | none => ∃ presented, input.previous = .str presented) :
    (acquire t input debugLink connect).result = .error (.error "wrong previous session")
      ∧ (acquire t input debugLink connect).effects = []
      ∧ (acquire t input debugLink connect).state = t := by
  have hne : input.previous.looseEq
      (MaybeString.ofOption ((t.sessionsOf debugLink).get input.path)) = false := by
    cases hg : (t.sessionsOf debugLink).get input.path with
    | none =>
      rw [hg] at h
      obtain ⟨p, hp⟩ := h
      rw [hp]; rfl
    | some recorded =>
      rw [hg] at h
      cases hp : input.previous with
      | undefined => rfl
      | null => rfl
      | str p =>
        have : p ≠ recorded := fun e => h (by rw [hp, e])
        simp [MaybeString.ofOption, MaybeString.looseEq, this]
  unfold acquire
  simp [hne]

/-- C1, at an instance: path `"1"` is bound to `"0"` and the caller
presents `null`. -/
theorem acquire_wrong_previous_rejected_witness :
    (acquire Sample.boundNormal ⟨"1", .null⟩ false (.ok ())).result
        = .error (.error "wrong previous session")
      ∧ (acquire Sample.boundNormal ⟨"1", .null⟩ false (.ok ())).effects = []
      ∧ (acquire Sample.boundNormal ⟨"1", .null⟩ false (.ok ())).state = Sample.boundNormal :=
  acquire_wrong_previous_rejected Sample.boundNormal ⟨"1", .null⟩ false (.ok ())
    (by show MaybeString.null ≠ MaybeString.str "0"; decide)

/-- C2, what the code does: after `acquire` of path `"1"` returned `"0"`,
`release` of `"0"` returns normally, with the plugin disconnecting or failing
to, and path `"1"` is still recorded with session `"0"`; the next `enumerate`
reports the device with session `"0"`. -/
theorem release_leaves_binding :
    (acquire Transport.initial ⟨"1", .undefined⟩ false (.ok ())).result = .ok "0"
      ∧ (release Sample.boundNormal "0" false false (.ok ())).result = .ok ()
      ∧ (release Sample.boundNormal "0" false false (.ok ())).state.sessions.normalSessions.get "1"
          = some "0"
      ∧ (release Sample.boundNormal "0" false false (.error (.thrown "usb"))).state.sessions.normalSessions.get "1"
          = some "0"
      ∧ (enumerate (release Sample.boundNormal "0" false false (.ok ())).state
            (.ok [⟨"1", false⟩])).result
          = .ok [⟨"1", .str "0", false, .undefined⟩] := by
  decide

/-- C3, what the code does: after `acquire` returned `"0"` and a first
`release` of `"0"` returned, a second `release` of `"0"` returns normally
as well and asks the plugin to disconnect once more; so does a `release` after
the forced release of an `enumerate` pass that no longer lists the path. -/
theorem second_release_succeeds :
    (release Sample.boundNormal "0" false false (.ok ())).result = .ok ()
      ∧ (release (release Sample.boundNormal "0" false false (.ok ())).state
            "0" false false (.ok ())).result = .ok ()
      ∧ (release (release Sample.boundNormal "0" false false (.ok ())).state
            "0" false false (.ok ())).effects = [Effect.pluginDisconnect "1" false true]
      ∧ (release (enumerate Sample.boundNormal (.ok [])).state
            "0" false false (.ok ())).result = .ok () := by
  decide
/-- C4: in every sequence of `acquire`, `release`, `enumerate` and `listen`
calls run from the initial state, every call returns, and the tokens returned
by the successful `acquire` calls are the decimal renderings of `0, 1, 2, ...`
in this order (the counter goes up by one per successful `acquire`), hence
pairwise distinct, whatever the class of each call. -/
theorem acquire_tokens_distinct (ops : List Op) :
    ∃ (final : Transport) (rets : List Returned),
      run Transport.initial ops = some (final, rets)
        ∧ tokens rets = (List.range final.sessionIdCounter).map toString
        ∧ (tokens rets).Nodup := by
  have h := run_returns ops Transport.initial
  cases hr : run Transport.initial ops with
  | none => simp [hr] at h
  | some q =>
    obtain ⟨final, rets⟩ := q
    have ht := (run_tokens ops _ _ _ hr).2
    have ht2 : tokens rets = (List.range final.sessionIdCounter).map toString := by
      rw [ht, List.range_eq_range']
      rfl
    refine ⟨final, rets, rfl, ht2, ?_⟩
    rw [ht2]
    exact (List.nodup_range _).map (fun _ _ h => toString_injective h)

/-- C5, as the code has it: on a transport without message definitions
(`configure` never succeeded), `call`, `post` and `read` fail with
`Transport not configured.` when the session is recorded in the map of the
class, and with `Session not available.` when it is not; in both cases nothing
is sent to or received from the device. -/
theorem unconfigured_dispatch (t later : Transport) (session name data : String)
    (debugLink : Bool) (sent : Except JsError Unit) (received : Except JsError MessageFromTrezor)
    (h : t._messages = none) :
    ((∃ path, (t.sessionsOf debugLink).get path = some session) →
        call t later session name data debugLink sent received
            = ⟨.error (.error "Transport not configured."), later, []⟩
          ∧ post t later session name data debugLink sent
            = ⟨.error (.error "Transport not configured."), later, []⟩
          ∧ read t later session debugLink received
            = ⟨.error (.error "Transport not configured."), later, []⟩)
      ∧ ((∀ path, (t.sessionsOf debugLink).get path ≠ some session) →
        call t later session name data debugLink sent received
            = ⟨.error (.error "Session not available."), t, []⟩
          ∧ post t later session name data debugLink sent
            = ⟨.error (.error "Session not available."), t, []⟩
          ∧ read t later session debugLink received
            = ⟨.error (.error "Session not available."), t, []⟩) := by
  have hm : messages t = .error (.error "Transport not configured.") := by
    simp [messages, h]
  constructor
  · intro hb
    refine ⟨?_, ?_, ?_⟩
    · obtain ⟨path, _, he⟩ := doWithSession_known t later session debugLink
        (fun path => match messages t with
          | .error e => (.error e, [])
          | .ok _ =>
            match sent with
            | .error e => (.error e, [Effect.buildAndSend path debugLink name data])
            | .ok _ =>
              (received, [Effect.buildAndSend path debugLink name data,
                Effect.receiveAndParse path debugLink])) hb
      unfold call
      rw [he, hm]
    · obtain ⟨path, _, he⟩ := doWithSession_known t later session debugLink
        (fun path => match messages t with
          | .error e => ((.error e : Except JsError Unit), [])
          | .ok _ => (sent, [Effect.buildAndSend path debugLink name data])) hb
      unfold post
      rw [he, hm]
    · obtain ⟨path, _, he⟩ := doWithSession_known t later session debugLink
        (fun path => match messages t with
          | .error e => ((.error e : Except JsError MessageFromTrezor), [])
          | .ok _ => (received, [Effect.receiveAndParse path debugLink])) hb
      unfold read
      rw [he, hm]
  · intro hu
    exact ⟨doWithSession_unknown t later session debugLink _ hu,
      doWithSession_unknown t later session debugLink _ hu,
      doWithSession_unknown t later session debugLink _ hu⟩

/-- C5, at an instance: the bound session `"0"` on a transport that was never
configured. -/
theorem unconfigured_dispatch_witness :
    Sample.boundNormal._messages = none
      ∧ call Sample.boundNormal Sample.boundNormal "0" "Ping" "" false (.ok ())
          (.ok Sample.success)
        = ⟨.error (.error "Transport not configured."), Sample.boundNormal, []⟩ :=
  ⟨rfl, ((unconfigured_dispatch Sample.boundNormal Sample.boundNormal "0" "Ping" "" false
    (.ok ()) (.ok Sample.success) rfl).1 ⟨"1", by decide⟩).1⟩

/-- C5 fails as stated: on a fresh transport, never configured, `call`,
`post` and `read` on the never issued session `"0"` fail with
`Session not available.`, which is another error than
`Transport not configured.`. -/
theorem unconfigured_unknown_session_error :
    Transport.initial._messages = none
      ∧ (call Transport.initial Transport.initial "0" "Ping" "" false (.ok ())
          (.ok Sample.success)).result = .error (.error "Session not available.")
      ∧ (post Transport.initial Transport.initial "0" "Ping" "" false (.ok ())).result
          = .error (.error "Session not available.")
      ∧ (read Transport.initial Transport.initial "0" false (.ok Sample.success)).result
          = .error (.error "Session not available.")
      ∧ (call Transport.initial Transport.initial "0" "Ping" "" false (.ok ())
          (.ok Sample.success)).result ≠ .error (.error "Transport not configured.") := by
  decide

/-- C6, what the code does: with path `"1"` bound to `"0"`, an `enumerate`
pass in which the plugin reports no device fires the release signal of `"0"`
and removes it from the table, but path `"1"` is still recorded with session
`"0"` when `enumerate` returns. -/
theorem enumerate_vanished_path_stays_bound :
    Sample.boundNormal.sessions.normalSessions.get "1" = some "0"
      ∧ Sample.boundNormal.deferedNormalOnRelease.get "0" = some createDefered
      ∧ (enumerate Sample.boundNormal (.ok [])).result = .ok []
      ∧ (enumerate Sample.boundNormal (.ok [])).effects
          = [Effect.pluginEnumerate,
              Effect.rejected "0" false (.error "Device released or disconnected")]
      ∧ (enumerate Sample.boundNormal (.ok [])).state.deferedNormalOnRelease.get "0" = none
      ∧ (enumerate Sample.boundNormal (.ok [])).state.sessions.normalSessions.get "1"
          = some "0" := by
  decide

/-- C7, what the code does: with path `"1"` bound to the Debug session `"0"`
whose signal is live, an `enumerate` pass in which the plugin still reports
path `"1"` fires the signal of `"0"` and removes it from the table. -/
theorem enumerate_fires_listed_debug_session :
    Sample.boundDebug.sessions.debugSessions.get "1" = some "0"
      ∧ Sample.boundDebug.deferedDebugOnRelease.get "0" = some createDefered
      ∧ (enumerate Sample.boundDebug (.ok [⟨"1", true⟩])).result
          = .ok [⟨"1", .undefined, true, .str "0"⟩]
      ∧ (enumerate Sample.boundDebug (.ok [⟨"1", true⟩])).effects
          = [Effect.pluginEnumerate,
              Effect.rejected "0" true (.error "Device released or disconnected")]
      ∧ (enumerate Sample.boundDebug (.ok [⟨"1", true⟩])).state.deferedDebugOnRelease.get "0"
          = none := by
  decide

/-- C8, what the code does: on a configured transport, `call` on the session
`"0"` after its `release` (or after its forced release by `enumerate`) sends
the request and reads the answer, then fails with a `TypeError` for the
missing signal; when the plugin fails, `call` fails with the error of the
plugin. It never fails with `Device released or disconnected`. -/
theorem call_after_release_type_error :
    Sample.released._messages = some ⟨"signed"⟩
      ∧ call Sample.released Sample.released "0" "Ping" "" false (.ok ()) (.ok Sample.success)
        = ⟨.error (.typeError "Cannot read properties of undefined (reading rejectingPromise)"),
            Sample.released,
            [Effect.buildAndSend "1" false "Ping" "", Effect.receiveAndParse "1" false]⟩
      ∧ (call Sample.vanished Sample.vanished "0" "Ping" "" false (.ok ())
            (.ok Sample.success)).result
        = .error (.typeError "Cannot read properties of undefined (reading rejectingPromise)")
      ∧ (post Sample.released Sample.released "0" "Ping" "" false (.ok ())).result
        = .error (.typeError "Cannot read properties of undefined (reading rejectingPromise)")
      ∧ (read Sample.released Sample.released "0" false (.ok Sample.success)).result
        = .error (.typeError "Cannot read properties of undefined (reading rejectingPromise)")
      ∧ (call Sample.released Sample.released "0" "Ping" "" false (.error (.thrown "usb"))
            (.ok Sample.success)).result
        = .error (.thrown "usb") := by
  decide

/-- C9, what the code does: `call` starts on the bound session `"0"` of a
configured transport and the session is released while the plugin work is
pending. When the plugin work settles, `call` fails with a `TypeError` for the
missing signal if the work succeeded and with the error of the plugin if it
failed; the outcome is in neither case `Device released or disconnected`. -/
theorem call_released_in_flight_type_error :
    (call Sample.configured Sample.configured "0" "Ping" "" false (.ok ())
        (.ok Sample.success)).result = .ok Sample.success
      ∧ (call Sample.configured Sample.released "0" "Ping" "" false (.ok ())
          (.ok Sample.success)).result
        = .error (.typeError "Cannot read properties of undefined (reading rejectingPromise)")
      ∧ (call Sample.configured Sample.vanished "0" "Ping" "" false (.ok ())
          (.ok Sample.success)).result
        = .error (.typeError "Cannot read properties of undefined (reading rejectingPromise)")
      ∧ (call Sample.configured Sample.released "0" "Ping" "" false (.ok ())
          (.error (.thrown "usb"))).result
        = .error (.thrown "usb")
      ∧ (post Sample.configured Sample.released "0" "Ping" "" false (.ok ())).result
        = .error (.typeError "Cannot read properties of undefined (reading rejectingPromise)")
      ∧ (read Sample.configured Sample.released "0" false (.ok Sample.success)).result
        = .error (.typeError "Cannot read properties of undefined (reading rejectingPromise)") := by
  decide

/-- C10: a `release` call on a session of one class, whether it succeeds or
fails, leaves the path => session map of the other class and the table of
live release signals of the other class as they were. -/
theorem release_other_class_untouched (t : Transport) (session : String)
    (onclose debugLink : Bool) (disconnect : Except JsError Unit) :
    (release t session onclose debugLink disconnect).state.sessionsOf (!debugLink)
        = t.sessionsOf (!debugLink)
      ∧ (release t session onclose debugLink disconnect).state.deferedOf (!debugLink)
        = t.deferedOf (!debugLink) := by
  constructor
  · unfold Transport.sessionsOf
    rw [(release_sessions t session onclose debugLink disconnect).1]
  · unfold release
    simp only
    split
    · rfl
    · cases disconnect <;> exact _releaseCleanup_other _ _ _

/-- C11 fails as stated: when the plugin reports path `"1"` twice, `enumerate`
returns two descriptors with path `"1"`. -/
theorem enumerate_repeats_reported_path :
    (enumerate Transport.initial (.ok [⟨"1", false⟩, ⟨"1", false⟩])).result
        = .ok [⟨"1", .undefined, false, .undefined⟩, ⟨"1", .undefined, false, .undefined⟩]
      ∧ ¬ (([⟨"1", .undefined, false, .undefined⟩, ⟨"1", .undefined, false, .undefined⟩] :
            List TrezorDeviceInfoWithSession).map (fun d => d.path)).Nodup := by
  decide

/-- C11, as the code has it: when no two devices reported by the plugin share
a path, no two descriptors returned by `enumerate` share a path. -/
theorem enumerate_paths_distinct (t : Transport) (devices : List TrezorDeviceInfoDebug)
    (h : (devices.map (fun device => device.path)).Nodup) :
    ∃ result : List TrezorDeviceInfoWithSession,
      (enumerate t (.ok devices)).result = .ok result
        ∧ (result.map (fun d => d.path)).Nodup := by
  refine ⟨_, _silentEnumerate_result t devices, ?_⟩
  rw [((arraySort_perm _ _).map _).nodup_iff, List.map_map]
  exact h

/-- C11, at an instance: the plugin reports the paths `"2"` and `"1"`. -/
theorem enumerate_paths_distinct_witness :
    ∃ result : List TrezorDeviceInfoWithSession,
      (enumerate Transport.initial (.ok [⟨"2", false⟩, ⟨"1", true⟩])).result = .ok result
        ∧ (result.map (fun d => d.path)).Nodup :=
  enumerate_paths_distinct Transport.initial [⟨"2", false⟩, ⟨"1", true⟩] (by decide)

/-- C12 fails as stated: the paths `"9007199254740993"` and
`"9007199254740992"` parse cleanly as decimal integers, but `parseInt` gives
the same double, `2 ^ 53`, for both, `compare` answers `0`, and `enumerate`
returns the two descriptors in the order of the plugin, the larger value
first. -/
theorem enumerate_keeps_large_paths_unsorted :
    "9007199254740993".data.all Char.isDigit = true
      ∧ "9007199254740992".data.all Char.isDigit = true
      ∧ parseInt "9007199254740993" = some (.finite 9007199254740992)
      ∧ parseInt "9007199254740992" = some (.finite 9007199254740992)
      ∧ compare ⟨"9007199254740993", .undefined, false, .undefined⟩
          ⟨"9007199254740992", .undefined, false, .undefined⟩ = some 0
      ∧ (enumerate Transport.initial
          (.ok [⟨"9007199254740993", false⟩, ⟨"9007199254740992", false⟩])).result
        = .ok [⟨"9007199254740993", .undefined, false, .undefined⟩,
            ⟨"9007199254740992", .undefined, false, .undefined⟩]
      ∧ ¬ decimalValue "9007199254740993".data ≤ decimalValue "9007199254740992".data := by
  decide

/-- C12, as the code has it: when every path reported by the plugin is a
non-empty string of decimal digits whose value is at most `2 ^ 53`, the range
in which `parseInt` and the difference in `compare` are exact, `enumerate`
returns the descriptors in ascending numeric order of path: of two
descriptors, the earlier one never has the larger value. -/
theorem enumerate_numeric_order (t : Transport) (devices : List TrezorDeviceInfoDebug)
    (h : ∀ device ∈ devices,
      device.path.data ≠ [] ∧ device.path.data.all Char.isDigit = true
        ∧ decimalValue device.path.data ≤ 2 ^ 53) :
    ∃ result : List TrezorDeviceInfoWithSession,
      (enumerate t (.ok devices)).result = .ok result
        ∧ result.Pairwise (fun a b => decimalValue a.path.data ≤ decimalValue b.path.data) := by
  refine ⟨_, _silentEnumerate_result t devices, ?_⟩
  exact arraySort_numeric (fun d => decimalValue d.path.data)
    (devices.map (fun device =>
          ({ path := device.path
             session := MaybeString.ofOption (t.sessions.normalSessions.get device.path)
             debug := device.debug
             debugSession := MaybeString.ofOption (t.sessions.debugSessions.get device.path) }
            : TrezorDeviceInfoWithSession)))
    (by
      intro d hd
      obtain ⟨device, hdev, he⟩ := List.mem_map.mp hd
      subst he
      obtain ⟨h1, h2, h3⟩ := h device hdev
      refine ⟨?_, h3⟩
      rw [parseInt_digits _ h1 h2, roundToDouble_exact _ (by simpa using h3)])

/-- C12, at an instance: the paths `"2"`, `"10"`, `"1"` come back as `"1"`,
`"2"`, `"10"`. -/
theorem enumerate_numeric_order_witness :
    (enumerate Transport.initial (.ok [⟨"2", false⟩, ⟨"10", false⟩, ⟨"1", false⟩])).result
        = .ok [⟨"1", .undefined, false, .undefined⟩, ⟨"2", .undefined, false, .undefined⟩,
            ⟨"10", .undefined, false, .undefined⟩]
      ∧ ∃ result : List TrezorDeviceInfoWithSession,
        (enumerate Transport.initial
            (.ok [⟨"2", false⟩, ⟨"10", false⟩, ⟨"1", false⟩])).result = .ok result
          ∧ result.Pairwise
              (fun a b => decimalValue a.path.data ≤ decimalValue b.path.data) :=
  ⟨by decide, enumerate_numeric_order Transport.initial
    [⟨"2", false⟩, ⟨"10", false⟩, ⟨"1", false⟩] (by decide)⟩

/-- C13, what the code does: `compare` looks at the path of its first
argument only. For the paths `"10"` and `"a"` it returns `NaN` although
`"10" < "a"` as strings, and for `"10a"` and `"9"` it returns `1` although
`"10a" < "9"` as strings; with the arguments swapped it compares the strings. -/
theorem compare_mixed_paths_nan :
    compare ⟨"10", .undefined, false, .undefined⟩ ⟨"a", .undefined, false, .undefined⟩ = none
      ∧ stringLt "10" "a" = true
      ∧ compare ⟨"a", .undefined, false, .undefined⟩ ⟨"10", .undefined, false, .undefined⟩
          = some 1
      ∧ compare ⟨"10a", .undefined, false, .undefined⟩ ⟨"9", .undefined, false, .undefined⟩
          = some 1
      ∧ stringLt "10a" "9" = true := by
  decide

/-- C14 fails as stated: when every pass reports no device and the baseline
is the empty list, `listen` makes 61 calls of `plugin.enumerate`, not 60. -/
theorem listen_unchanged_sixty_one_calls :
    ∃ r, listen Transport.initial (some []) (fun _ => .ok []) = some r
      ∧ r.result = .ok []
      ∧ r.effects.count Effect.pluginEnumerate = 61
      ∧ r.effects.count Effect.pluginEnumerate ≠ 60 := by
  obtain ⟨r, hr, h1, _, h3, _⟩ := _runIter_unchanged (fun _ => .ok []) Transport.initial _
    (fun i _ => ⟨[], rfl, rfl⟩) (ITER_MAX + 1) Transport.initial 0 [] rfl (by omega) (by omega)
  have h61 : r.effects.count Effect.pluginEnumerate = 61 := by rw [h3]; rfl
  exact ⟨r, hr, h1, h61, by rw [h61]; decide⟩

/-- C14, as the code has it: when the descriptor list of every pass has the
same canonical serialization as the baseline, `listen` returns, after exactly
`ITER_MAX + 1 = 61` calls of `plugin.enumerate` (rounds `0` to `60`) separated
by `60` waits of `ITER_DELAY = 500` ms, what the pass of round `60` yields.
The descriptor list of a pass depends on the answer of the plugin and on the
session maps, which no pass changes. -/
theorem listen_unchanged_polls (t : Transport)
    (old : Option (List TrezorDeviceInfoWithSession))
    (plugin : Nat → Except JsError (List TrezorDeviceInfoDebug))
    (h : ∀ i, i ≤ ITER_MAX → ∃ devices,
      (enumerate t (plugin i)).result = .ok devices
        ∧ stableStringify (some devices)
          = (if old.isNone then t._lastStringified else stableStringify old)) :
    ∃ r, listen t old plugin = some r
      ∧ r.result = (enumerate t (plugin 60)).result
      ∧ r.effects.count Effect.pluginEnumerate = 61
      ∧ r.effects.count (Effect.timeout 500) = 60 := by
  obtain ⟨r, hr, h1, _, h3, h4⟩ := _runIter_unchanged plugin t _ h (ITER_MAX + 1) t 0 []
    rfl (by omega) (by omega)
  refine ⟨r, hr, h1, ?_, ?_⟩
  · rw [h3]; rfl
  · have : List.count (Effect.timeout ITER_DELAY) r.effects = ITER_MAX := by
      simpa using h4
    exact this

/-- C14, at an instance: path `"1"` is bound to `"0"`, the plugin reports it
in every round and the baseline differs from that in the debug fields only. -/
theorem listen_unchanged_polls_witness :
    ∃ r, listen Sample.boundNormal (some [⟨"1", .str "0", true, .null⟩])
          (fun _ => .ok [⟨"1", false⟩]) = some r
      ∧ r.result = (enumerate Sample.boundNormal (.ok [⟨"1", false⟩])).result
      ∧ r.effects.count Effect.pluginEnumerate = 61
      ∧ r.effects.count (Effect.timeout 500) = 60 :=
  listen_unchanged_polls Sample.boundNormal (some [⟨"1", .str "0", true, .null⟩])
    (fun _ => .ok [⟨"1", false⟩])
    (fun i _ => ⟨[⟨"1", .str "0", false, .undefined⟩], rfl, by decide⟩)

/-- C15: when the first pass inside `listen` yields a descriptor list whose
canonical serialization differs from the baseline (that of `old`, or
`_lastStringified` when `old` is absent), `listen` returns exactly that list
after one call of `plugin.enumerate` and no wait, and `_lastStringified` is
the serialization of the returned list. -/
theorem listen_first_pass_changed (t : Transport)
    (old : Option (List TrezorDeviceInfoWithSession))
    (plugin : Nat → Except JsError (List TrezorDeviceInfoDebug))
    (devices : List TrezorDeviceInfoWithSession)
    (h0 : (enumerate t (plugin 0)).result = .ok devices)
    (hne : stableStringify (some devices)
      ≠ (if old.isNone then t._lastStringified else stableStringify old)) :
    ∃ r, listen t old plugin = some r
      ∧ r.result = .ok devices
      ∧ r.state._lastStringified = stableStringify (some devices)
      ∧ r.effects.count Effect.pluginEnumerate = 1
      ∧ ∀ ms, r.effects.count (Effect.timeout ms) = 0 := by
  have hcount := _silentEnumerate_counts t (plugin 0)
  unfold enumerate at h0
  refine ⟨⟨.ok devices, { (_silentEnumerate t (plugin 0)).state with
      _lastStringified := stableStringify (some devices) },
    [] ++ (_silentEnumerate t (plugin 0)).effects⟩, ?_, rfl, rfl, ?_, ?_⟩
  · exact _runIter_changed plugin ITER_MAX t 0 _ [] devices h0 hne
  · simpa using hcount.1
  · intro ms
    simpa using hcount.2 ms

/-- C15, at an instance: the baseline is the empty list and the plugin reports
path `"1"`. -/
theorem listen_first_pass_changed_witness :
    ∃ r, listen Transport.initial (some []) (fun _ => .ok [⟨"1", false⟩]) = some r
      ∧ r.result = .ok [⟨"1", .undefined, false, .undefined⟩]
      ∧ r.state._lastStringified
          = stableStringify (some [⟨"1", .undefined, false, .undefined⟩])
      ∧ r.effects.count Effect.pluginEnumerate = 1
      ∧ ∀ ms, r.effects.count (Effect.timeout ms) = 0 :=
  listen_first_pass_changed Transport.initial (some []) (fun _ => .ok [⟨"1", false⟩])
    [⟨"1", .undefined, false, .undefined⟩] (by decide) (by decide)

/-- C16: two descriptor lists of equal length whose entries agree, position by
position, on the path and on the normal session (an absent session counting
as a null one) have the same `stableStringify`, whatever their debug flags
and debug sessions; so when `listen` is given the one as `old` and its first
pass yields the other, it does not return on that pass: it waits and polls
again. -/
theorem stableStringify_ignores_debug (l1 l2 : List TrezorDeviceInfoWithSession)
    (h : List.Forall₂ (fun a b => a.path = b.path
      ∧ (a.session = b.session ∨ (a.session.isNullish = true ∧ b.session.isNullish = true)))
      l1 l2) :
    stableStringify (some l1) = stableStringify (some l2)
      ∧ ∀ (t : Transport) (plugin : Nat → Except JsError (List TrezorDeviceInfoDebug)),
          (enumerate t (plugin 0)).result = .ok l2 →
          ∃ r, listen t (some l1) plugin = some r
            ∧ 2 ≤ r.effects.count Effect.pluginEnumerate
            ∧ 1 ≤ r.effects.count (Effect.timeout ITER_DELAY) := by
  have hs := stableStringify_congr l1 l2 h
  refine ⟨hs, ?_⟩
  intro t plugin h0
  have hret := listen_returns t (some l1) plugin
  cases hl : listen t (some l1) plugin with
  | none => rw [hl] at hret; cases hret
  | some r =>
    refine ⟨r, rfl, ?_⟩
    have hc := _silentEnumerate_counts t (plugin 0)
    have hstep : listen t (some l1) plugin
        = _runIter plugin ITER_MAX (_silentEnumerate t (plugin 0)).state 1
            (stableStringify (some l2))
            ([] ++ (_silentEnumerate t (plugin 0)).effects ++ [Effect.timeout ITER_DELAY]) := by
      unfold enumerate at h0
      show _runIter plugin (ITER_MAX + 1) t 0 _ [] = _
      have hcond : ¬ (stableStringify (some l2) ≠ stableStringify (some l1) ∨ 0 = ITER_MAX) := by
        intro hc
        rcases hc with hc | hc
        · exact hc hs.symm
        · cases hc
      have : (if (some l1).isNone = true then t._lastStringified else stableStringify (some l1))
          = stableStringify (some l1) := rfl
      rw [this]
      conv_lhs => rw [_runIter]
      simp only [h0]
      rw [if_neg hcond]
    rw [hstep] at hl
    have := _runIter_counts plugin _ _ _ _ _ r hl
    simp only [List.count_append, hc.1, hc.2, List.nil_append, List.count_nil,
      List.count_singleton_self] at this
    have h3 : List.count Effect.pluginEnumerate [Effect.timeout ITER_DELAY] = 0 :=
      List.count_eq_zero.mpr (by simp)
    rw [h3] at this
    omega

/-- C16, at an instance: the two lists differ in the debug flag, the debug
session and in `undefined` against `null` for the normal session. -/
theorem stableStringify_ignores_debug_witness :
    stableStringify (some [⟨"1", .undefined, false, .undefined⟩])
        = stableStringify (some [⟨"1", .null, true, .str "0"⟩]) :=
  (stableStringify_ignores_debug [⟨"1", .undefined, false, .undefined⟩]
    [⟨"1", .null, true, .str "0"⟩]
    (List.Forall₂.cons ⟨rfl, Or.inr ⟨rfl, rfl⟩⟩ List.Forall₂.nil)).1

/-- C17: when the presented previous session matches the record (an absent
record matching an absent or null previous) and `plugin.connect` fails,
`acquire` fails with the error of the plugin, and the state, so the counter,
both maps and both signal tables, is as it was. -/
theorem acquire_connect_failure (t : Transport) (input : AcquireInput) (debugLink : Bool)
    (e : JsError)
    (h : match (t.sessionsOf debugLink).get input.path with
         | some recorded => input.previous = .str recorded
         | none => input.previous = .null ∨ input.previous = .undefined) :
    acquire t input debugLink (.error e)
      = ⟨.error e, t, [Effect.pluginConnect input.path debugLink true]⟩ := by
  have heq : input.previous.looseEq
      (MaybeString.ofOption ((t.sessionsOf debugLink).get input.path)) = true := by
    cases hg : (t.sessionsOf debugLink).get input.path with
    | none =>
      rw [hg] at h
      rcases h with h | h <;> rw [h] <;> rfl
    | some recorded =>
      rw [hg] at h
      rw [h]
      simp [MaybeString.ofOption, MaybeString.looseEq]
  unfold acquire
  simp [heq]

/-- C17, at an instance: path `"1"` is bound to `"0"`, the caller presents
`"0"` and the plugin throws. -/
theorem acquire_connect_failure_witness :
    acquire Sample.boundNormal ⟨"1", .str "0"⟩ false (.error (.thrown "busy"))
      = ⟨.error (.thrown "busy"), Sample.boundNormal, [Effect.pluginConnect "1" false true]⟩ :=
  acquire_connect_failure Sample.boundNormal ⟨"1", .str "0"⟩ false (.thrown "busy")
    (by show MaybeString.str "0" = MaybeString.str "0"; rfl)

/-- C18, what the code does: the state after `acquire` and `release` of the
Normal session `"0"` is reachable, records `"0"` for path `"1"` and holds
no release signal for `"0"`; so does, for the Debug session `"0"`, the state
after `acquire` and an `enumerate` pass that still reports path `"1"`. -/
theorem released_record_without_signal :
    Reachable (release Sample.boundNormal "0" false false (.ok ())).state
      ∧ ((release Sample.boundNormal "0" false false (.ok ())).state.sessionsOf false).get "1"
          = some "0"
      ∧ ((release Sample.boundNormal "0" false false (.ok ())).state.deferedOf false).get "0"
          = none
      ∧ Reachable (enumerate Sample.boundDebug (.ok [⟨"1", true⟩])).state
      ∧ ((enumerate Sample.boundDebug (.ok [⟨"1", true⟩])).state.sessionsOf true).get "1"
          = some "0"
      ∧ ((enumerate Sample.boundDebug (.ok [⟨"1", true⟩])).state.deferedOf true).get "0"
          = none :=
  ⟨Reachable.step (.release "0" false false (.ok ())) sample_reachable rfl, by decide, by decide,
    Reachable.step (.enumerate (.ok [⟨"1", true⟩]))
      (Reachable.step (.acquire ⟨"1", .undefined⟩ true (.ok ())) Reachable.initial rfl) rfl,
    by decide, by decide⟩

/-- C19: in every state reachable from the initial state by `acquire`,
`release`, `enumerate` and `listen`, a session recorded for a path in a class
is recorded for no other path and in no other class. -/
theorem session_recorded_once (t : Transport) (h : Reachable t) (d1 d2 : Bool)
    (p1 p2 s : String)
    (h1 : (t.sessionsOf d1).get p1 = some s) (h2 : (t.sessionsOf d2).get p2 = some s) :
    d1 = d2 ∧ p1 = p2 :=
  (recorded_invariant t h).2 d1 d2 p1 p2 s h1 h2

/-- C19, at an instance: the record of session `"0"` for path `"1"` in the
Normal class. -/
theorem session_recorded_once_witness :
    (Sample.boundNormal.sessionsOf false).get "1" = some "0"
      ∧ (false = false ∧ "1" = "1") :=
  ⟨by decide, session_recorded_once Sample.boundNormal sample_reachable false false "1" "1" "0"
    (by decide) (by decide)⟩

/-- C20: the list returned by `enumerate` is a permutation of the list that
maps each reported device to the descriptor with its path, its debug flag,
the Normal session recorded for the path and the Debug session recorded for
the path (absent when none is recorded); it is as long as the reported list
and every descriptor in it has the path of a reported device. -/
theorem enumerate_permutation (t : Transport) (devices : List TrezorDeviceInfoDebug) :
    ∃ result : List TrezorDeviceInfoWithSession,
      (enumerate t (.ok devices)).result = .ok result
        ∧ result.Perm (devices.map (fun device =>
            ({ path := device.path
               session := MaybeString.ofOption ((t.sessionsOf false).get device.path)
               debug := device.debug
               debugSession := MaybeString.ofOption ((t.sessionsOf true).get device.path) }
              : TrezorDeviceInfoWithSession)))
        ∧ result.length = devices.length
        ∧ ∀ d ∈ result, ∃ device ∈ devices, device.path = d.path := by
  refine ⟨_, _silentEnumerate_result t devices, arraySort_perm _ _, ?_, ?_⟩
  · rw [(arraySort_perm _ _).length_eq, List.length_map]
  · intro d hd
    have := (arraySort_perm _ _).mem_iff.mp hd
    obtain ⟨device, hdev, he⟩ := List.mem_map.mp this
    exact ⟨device, hdev, by rw [← he]⟩

end TrezorLink
